import Mathlib

set_option maxHeartbeats 1000000

namespace Scorecard

/-! Shallow embedding of the aggregation, comparison and forecasting engine
in `src/lib/data/normalize.ts`. JavaScript numbers are modelled as exact
rationals; the `"YYYY-MM"` month-key strings are modelled as year/month
pairs ordered lexicographically, which agrees with the string order the
source uses on zero-padded four-digit keys; category strings are modelled
as lists of characters. Presentation-only outputs (labels, model notes,
justification text) are omitted. -/

/-- A calendar month key: the embedding of a `"YYYY-MM"` month string.
`year` is the (four-digit) year and `mo` the month number, 1 to 12 for a
well-formed key. -/
structure MonthKey where
  year : ℤ
  mo : ℤ
  deriving DecidableEq

/-- Order on month keys: for well-formed keys this is exactly the
`localeCompare` string order (`sortMonths`) the source sorts by. -/
def monthLe (a b : MonthKey) : Prop :=
  a.year < b.year ∨ (a.year = b.year ∧ a.mo ≤ b.mo)

/-- Strict version of `monthLe`. -/
def monthLt (a b : MonthKey) : Prop :=
  a.year < b.year ∨ (a.year = b.year ∧ a.mo < b.mo)

instance : DecidableRel monthLe := fun a b =>
  inferInstanceAs (Decidable (a.year < b.year ∨ (a.year = b.year ∧ a.mo ≤ b.mo)))

instance : DecidableRel monthLt := fun a b =>
  inferInstanceAs (Decidable (a.year < b.year ∨ (a.year = b.year ∧ a.mo < b.mo)))

instance : IsTrans MonthKey monthLe :=
  ⟨by intro a b c hab hbc; unfold monthLe at *; omega⟩

instance : IsTotal MonthKey monthLe :=
  ⟨by intro a b; unfold monthLe; omega⟩

instance : IsAntisymm MonthKey monthLe :=
  ⟨by
    intro a b hab hba
    cases a with
    | mk ay am =>
      cases b with
      | mk by' bm =>
        simp only [monthLe] at hab hba
        simp only [MonthKey.mk.injEq]
        omega⟩

/-- The linear position of a month on the time axis, in months. -/
def monthIdx (m : MonthKey) : ℤ :=
  m.year * 12 + (m.mo - 1)

/-- `addMonths` from the source: `Date.UTC(year, monthIndex + offset, 1)`
normalizes an arbitrary month index by floor division, which for the
positive divisor 12 is exactly `Int.ediv` / `Int.emod`. -/
def addMonths (m : MonthKey) (offset : ℤ) : MonthKey :=
  let total := monthIdx m + offset
  ⟨total / 12, total % 12 + 1⟩

/-- `parseMonthParts` from the source: a month key parses iff its month
number is in 1..12 (the four-digit-year regex check has no counterpart in
the pair model, where the year is already an integer). -/
def parseMonthParts (m : MonthKey) : Option MonthKey :=
  if 1 ≤ m.mo ∧ m.mo ≤ 12 then some m else none

/-- The ubiquitous `parseMonthParts(month)?.month ?? 0` idiom. -/
def monthNumberOf (m : MonthKey) : ℤ :=
  if 1 ≤ m.mo ∧ m.mo ≤ 12 then m.mo else 0

/-- The comparison tolerance of the source. -/
def EPSILON : ℚ := 1 / 100000

/-- Two-decimal rounding: `Math.round(value * 100) / 100`, where
`Math.round` rounds half away from zero upward, that is `⌊x + 1/2⌋`. -/
def round2 (value : ℚ) : ℚ :=
  (⌊value * 100 + 1 / 2⌋ : ℚ) / 100

/-- Sum of `f` over a list, the embedding of `reduce((s, x) => s + f(x), 0)`. -/
def sumBy (f : α → ℚ) (l : List α) : ℚ :=
  (l.map f).sum

/-- `average` from the source: 0 on the empty list. -/
def average (values : List ℚ) : ℚ :=
  if values.length = 0 then 0 else values.sum / (values.length : ℚ)

/-- `averageMonthOverMonthDelta`: mean of consecutive differences. -/
def averageMonthOverMonthDelta (values : List ℚ) : ℚ :=
  if values.length < 2 then 0
  else sumBy (fun p => p.2 - p.1) (values.zip (values.drop 1)) / ((values.length : ℚ) - 1)

/-- Population variance, the square of `standardDeviation` in the source.
Standard deviations are irrational in general, so every comparison the
source makes on a standard deviation is carried on its square here
(square root is monotone on nonnegatives). -/
def variancePop (values : List ℚ) : ℚ :=
  if values.length = 0 then 0
  else sumBy (fun v => (v - average values) ^ 2) values / (values.length : ℚ)

/-- `autocorrelation` from the source. The zipped list pairs each value
with the value `lag` positions later, matching the loop from index `lag`. -/
def autocorrelation (values : List ℚ) (lag : ℕ) : ℚ :=
  if values.length ≤ lag ∨ lag = 0 then 0
  else
    let mean := average values
    let numerator := sumBy (fun p => (p.2 - mean) * (p.1 - mean)) (values.zip (values.drop lag))
    let denominator := sumBy (fun v => (v - mean) ^ 2) values
    if |denominator| ≤ EPSILON then 0 else numerator / denominator

/-- `Math.max(...values)` on a nonempty list (0 for the empty list, which
the source never reaches because it guards on length). -/
def listMax : List ℚ → ℚ
  | [] => 0
  | x :: xs => xs.foldl max x

/-- `Math.min(...values)` on a nonempty list. -/
def listMin : List ℚ → ℚ
  | [] => 0
  | x :: xs => xs.foldl min x

inductive TrendDirection
  | up
  | down
  | flat
  deriving DecidableEq

/-- `trendFromDelta` from the source. -/
def trendFromDelta (delta : ℚ) : TrendDirection :=
  if |delta| ≤ EPSILON then TrendDirection.flat
  else if delta > 0 then TrendDirection.up else TrendDirection.down

/-- `pctDelta` from the source: `null` under the epsilon guard, otherwise
the relative change in percent against the absolute previous value. -/
def pctDelta (current previous : ℚ) : Option ℚ :=
  if |previous| ≤ EPSILON then none
  else some ((current - previous) / |previous| * 100)

/-- Character class of `normalizeCategory`: lowercase letters, digits,
colon and space survive; everything else becomes a space. -/
def isCategoryChar (c : Char) : Bool :=
  (decide ('a' ≤ c) && decide (c ≤ 'z')) || (decide ('0' ≤ c) && decide (c ≤ '9')) ||
    c == ':' || c == ' '

/-- `replace(/\s+/g, ' ')`: collapse runs of spaces (after the character
substitution only plain spaces remain). -/
def collapseSpaces : List Char → List Char
  | [] => []
  | [c] => [c]
  | c :: c2 :: rest =>
    if c == ' ' && c2 == ' ' then collapseSpaces (c2 :: rest)
    else c :: collapseSpaces (c2 :: rest)

/-- `trim()` on a list of characters. -/
def trimSpaces (cs : List Char) : List Char :=
  ((cs.dropWhile (fun c => c == ' ')).reverse.dropWhile (fun c => c == ' ')).reverse

/-- `split(':')` on a list of characters. -/
def splitOnColon : List Char → List (List Char)
  | [] => [[]]
  | c :: rest =>
    match splitOnColon rest with
    | [] => [[]]
    | segment :: segments =>
      if c == ':' then [] :: segment :: segments else (c :: segment) :: segments

/-- `normalizeCategory` from the source: lowercase, replace characters
outside `[a-z0-9: ]` with spaces, collapse whitespace, trim. -/
def normalizeCategory (category : List Char) : List Char :=
  trimSpaces (collapseSpaces
    ((category.map Char.toLower).map (fun c => if isCategoryChar c then c else ' ')))

def capitalDistributionKey : List Char := "capital distribution".toList

/-- `isCapitalDistribution` from the source: the normalized category is
the key itself, or one of its colon segments (trimmed, nonempty) is. -/
def isCapitalDistribution (category : List Char) : Bool :=
  let normalized := normalizeCategory category
  if normalized = [] then false
  else if normalized = capitalDistributionKey then true
  else
    (((splitOnColon normalized).map trimSpaces).filter (fun s => decide (s ≠ []))).any
      (fun s => s == capitalDistributionKey)

inductive TxnType
  | income
  | expense
  deriving DecidableEq

inductive CashFlowMode
  | operating
  | total
  deriving DecidableEq

/-- A normalized transaction, restricted to the fields the engine under
verification reads (`id`, `date`, `payee`, `memo`, `account`, `tags` and
`rawAmount` feed no claim). `amount` is the absolute amount. -/
structure Txn where
  month : MonthKey
  type : TxnType
  amount : ℚ
  category : List Char
  deriving DecidableEq

structure MonthlyRollup where
  month : MonthKey
  revenue : ℚ
  expenses : ℚ
  netCashFlow : ℚ
  savingsRate : ℚ
  transactionCount : ℕ
  deriving DecidableEq

/-- `InternalMonthlyRollup`: a rollup plus the capital-distribution
accumulator. -/
structure InternalMonthlyRollup where
  month : MonthKey
  revenue : ℚ
  expenses : ℚ
  netCashFlow : ℚ
  savingsRate : ℚ
  transactionCount : ℕ
  capitalDistribution : ℚ
  deriving DecidableEq

/-- The fresh accumulator entry `computeMonthlyRollups` creates for a month. -/
def emptyRollup (month : MonthKey) : InternalMonthlyRollup :=
  { month := month, revenue := 0, expenses := 0, netCashFlow := 0, savingsRate := 0,
    transactionCount := 0, capitalDistribution := 0 }

/-- One iteration of the `txns.forEach` body of `computeMonthlyRollups`
applied to the entry for the transaction month. -/
def updateRollup (cashFlowMode : CashFlowMode) (rollup : InternalMonthlyRollup) (txn : Txn) :
    InternalMonthlyRollup :=
  let rollup :=
    if txn.type = TxnType.income then
      { rollup with revenue := rollup.revenue + txn.amount }
    else
      { rollup with
        expenses := rollup.expenses + txn.amount,
        capitalDistribution := rollup.capitalDistribution +
          (if isCapitalDistribution txn.category then txn.amount else 0) }
  let effectiveExpenses :=
    if cashFlowMode = CashFlowMode.operating then rollup.expenses - rollup.capitalDistribution
    else rollup.expenses
  { rollup with
    netCashFlow := rollup.revenue - effectiveExpenses,
    transactionCount := rollup.transactionCount + 1 }

/-- The month-keyed `Map` of `computeMonthlyRollups`, as an association
list in insertion order: look the month up, create the entry if absent,
and apply the accumulation body. -/
def insertTxn (cashFlowMode : CashFlowMode) :
    List InternalMonthlyRollup → Txn → List InternalMonthlyRollup
  | [], txn => [updateRollup cashFlowMode (emptyRollup txn.month) txn]
  | r :: rest, txn =>
    if r.month = txn.month then updateRollup cashFlowMode r txn :: rest
    else r :: insertTxn cashFlowMode rest txn

/-- The final projection of `computeMonthlyRollups`: round the monetary
fields, derive the savings rate, drop the capital-distribution field. -/
def finalizeRollup (rollup : InternalMonthlyRollup) : MonthlyRollup :=
  { month := rollup.month,
    revenue := round2 rollup.revenue,
    expenses := round2 rollup.expenses,
    netCashFlow := round2 rollup.netCashFlow,
    savingsRate := round2
      (if EPSILON < rollup.revenue then rollup.netCashFlow / rollup.revenue * 100 else 0),
    transactionCount := rollup.transactionCount }

/-- The sort comparator of `computeMonthlyRollups`: `sortMonths` on the
month field. -/
def rollupMonthLe (a b : InternalMonthlyRollup) : Prop :=
  monthLe a.month b.month

instance : DecidableRel rollupMonthLe := fun a b =>
  inferInstanceAs (Decidable (monthLe a.month b.month))

instance : IsTrans InternalMonthlyRollup rollupMonthLe :=
  ⟨by
    intro a b c hab hbc
    unfold rollupMonthLe at *
    exact Trans.trans hab hbc⟩

instance : IsTotal InternalMonthlyRollup rollupMonthLe :=
  ⟨by
    intro a b
    unfold rollupMonthLe
    exact IsTotal.total a.month b.month⟩

/-- `computeMonthlyRollups` from the source: a single accumulation pass
keyed by month, then sort by month and finalize. The stable `Array.sort`
of the source is embedded as insertion sort. -/
def computeMonthlyRollups (txns : List Txn) (cashFlowMode : CashFlowMode) :
    List MonthlyRollup :=
  (List.insertionSort rollupMonthLe (txns.foldl (insertTxn cashFlowMode) [])).map
    finalizeRollup

/-- `RollupSummary`: a `KpiAggregate` without its timeframe tag. -/
structure RollupSummary where
  startMonth : Option MonthKey
  endMonth : Option MonthKey
  monthCount : ℕ
  transactionCount : ℕ
  revenue : ℚ
  expenses : ℚ
  netCashFlow : ℚ
  savingsRate : ℚ
  deriving DecidableEq

/-- `summarizeRollups` from the source: window totals, with the net cash
flow recomputed from the summed revenue and expenses. -/
def summarizeRollups (rollups : List MonthlyRollup) : RollupSummary :=
  if rollups = [] then
    { startMonth := none, endMonth := none, monthCount := 0, transactionCount := 0,
      revenue := 0, expenses := 0, netCashFlow := 0, savingsRate := 0 }
  else
    let revenue := sumBy (·.revenue) rollups
    let expenses := sumBy (·.expenses) rollups
    let netCashFlow := revenue - expenses
    { startMonth := rollups.head?.map (·.month),
      endMonth := rollups.getLast?.map (·.month),
      monthCount := rollups.length,
      transactionCount := (rollups.map (·.transactionCount)).sum,
      revenue := round2 revenue,
      expenses := round2 expenses,
      netCashFlow := round2 netCashFlow,
      savingsRate := round2 (if EPSILON < revenue then netCashFlow / revenue * 100 else 0) }

/-- `selectTrailingRollups`: the trailing `count` months (`slice(-count)`),
empty when `count` is zero (in JavaScript `slice(-0)` would return the
whole list, hence the explicit guard in the source). -/
def selectTrailingRollups (monthlyRollups : List MonthlyRollup) (count : ℕ) :
    List MonthlyRollup :=
  if count = 0 then [] else monthlyRollups.drop (monthlyRollups.length - count)

/-- `selectPriorTrailingBlock`: the `count` months immediately before the
trailing `count` months, all or nothing. -/
def selectPriorTrailingBlock (monthlyRollups : List MonthlyRollup) (count : ℕ) :
    List MonthlyRollup :=
  if count = 0 then []
  else if monthlyRollups.length < count * 2 then []
  else ((monthlyRollups.drop (monthlyRollups.length - count * 2)).take count)

/-- `selectYtdRollupsForYear` from the source. -/
def selectYtdRollupsForYear (monthlyRollups : List MonthlyRollup) (year : ℤ)
    (throughMonth : ℤ) : List MonthlyRollup :=
  monthlyRollups.filter (fun rollup =>
    match parseMonthParts rollup.month with
    | none => false
    | some parsed => decide (parsed.year = year ∧ parsed.mo ≤ throughMonth))

inductive KpiComparisonTimeframe
  | thisMonth
  | last3Months
  | ytd
  | ttm
  | last24Months
  | last36Months
  deriving DecidableEq

structure ComparisonBlocks where
  current : List MonthlyRollup
  previous : List MonthlyRollup
  deriving DecidableEq

/-- `selectComparisonBlocks` from the source. The leading length-zero
guard and the access to the latest rollup are merged into one `getLast?`
match (`getLast?` is `none` exactly when the list is empty). -/
def selectComparisonBlocks (monthlyRollups : List MonthlyRollup)
    (timeframe : KpiComparisonTimeframe) : ComparisonBlocks :=
  match monthlyRollups.getLast? with
  | none => { current := [], previous := [] }
  | some latest =>
    match timeframe with
    | KpiComparisonTimeframe.thisMonth =>
      { current := selectTrailingRollups monthlyRollups 1,
        previous := selectPriorTrailingBlock monthlyRollups 1 }
    | KpiComparisonTimeframe.last3Months =>
      { current := selectTrailingRollups monthlyRollups 3,
        previous := selectPriorTrailingBlock monthlyRollups 3 }
    | KpiComparisonTimeframe.ttm =>
      { current := selectTrailingRollups monthlyRollups 12,
        previous := selectPriorTrailingBlock monthlyRollups 12 }
    | KpiComparisonTimeframe.last24Months =>
      { current := selectTrailingRollups monthlyRollups 24,
        previous := selectPriorTrailingBlock monthlyRollups 24 }
    | KpiComparisonTimeframe.last36Months =>
      { current := selectTrailingRollups monthlyRollups 36,
        previous := selectPriorTrailingBlock monthlyRollups 36 }
    | KpiComparisonTimeframe.ytd =>
      match parseMonthParts latest.month with
      | none =>
        { current := selectTrailingRollups monthlyRollups 1,
          previous := selectPriorTrailingBlock monthlyRollups 1 }
      | some parsedLatest =>
        { current := selectYtdRollupsForYear monthlyRollups parsedLatest.year parsedLatest.mo,
          previous :=
            selectYtdRollupsForYear monthlyRollups (parsedLatest.year - 1) parsedLatest.mo }

structure KpiMetricComparison where
  current : ℚ
  previous : ℚ
  delta : ℚ
  percentChange : Option ℚ
  deriving DecidableEq

/-- `compareMetric` from the source. -/
def compareMetric (current previous : ℚ) : KpiMetricComparison :=
  { current := round2 current,
    previous := round2 previous,
    delta := round2 (current - previous),
    percentChange := pctDelta current previous }

structure KpiTimeframeComparison where
  timeframe : KpiComparisonTimeframe
  currentStartMonth : Option MonthKey
  currentEndMonth : Option MonthKey
  previousStartMonth : Option MonthKey
  previousEndMonth : Option MonthKey
  currentMonthCount : ℕ
  previousMonthCount : ℕ
  revenue : KpiMetricComparison
  expenses : KpiMetricComparison
  netCashFlow : KpiMetricComparison
  savingsRate : KpiMetricComparison
  deriving DecidableEq

/-- `buildTimeframeComparison` from the source. -/
def buildTimeframeComparison (timeframe : KpiComparisonTimeframe)
    (currentSummary previousSummary : RollupSummary) : KpiTimeframeComparison :=
  { timeframe := timeframe,
    currentStartMonth := currentSummary.startMonth,
    currentEndMonth := currentSummary.endMonth,
    previousStartMonth := previousSummary.startMonth,
    previousEndMonth := previousSummary.endMonth,
    currentMonthCount := currentSummary.monthCount,
    previousMonthCount := previousSummary.monthCount,
    revenue := compareMetric currentSummary.revenue previousSummary.revenue,
    expenses := compareMetric currentSummary.expenses previousSummary.expenses,
    netCashFlow := compareMetric currentSummary.netCashFlow previousSummary.netCashFlow,
    savingsRate := compareMetric currentSummary.savingsRate previousSummary.savingsRate }

/-- `computeKpiComparisons` from the source builds a record keyed by the
six comparison timeframes; the embedding is the function that record
tabulates. -/
def computeKpiComparisons (monthlyRollups : List MonthlyRollup)
    (timeframe : KpiComparisonTimeframe) : KpiTimeframeComparison :=
  let blocks := selectComparisonBlocks monthlyRollups timeframe
  buildTimeframeComparison timeframe (summarizeRollups blocks.current)
    (summarizeRollups blocks.previous)

inductive TrajectorySignalId
  | monthlyTrend
  | shortTermTrend
  | longTermTrend
  deriving DecidableEq

inductive TrafficLight
  | green
  | red
  | neutral
  deriving DecidableEq

structure TrajectorySignalConfig where
  id : TrajectorySignalId
  label : String
  timeframe : KpiComparisonTimeframe

/-- The `TRAJECTORY_SIGNALS` configuration table of the source. -/
def TRAJECTORY_SIGNALS : List TrajectorySignalConfig :=
  [{ id := TrajectorySignalId.monthlyTrend, label := "Monthly Trend",
     timeframe := KpiComparisonTimeframe.thisMonth },
   { id := TrajectorySignalId.shortTermTrend, label := "Short-Term Trend",
     timeframe := KpiComparisonTimeframe.last3Months },
   { id := TrajectorySignalId.longTermTrend, label := "Long-Term Trend",
     timeframe := KpiComparisonTimeframe.ttm }]

structure TrajectorySignal where
  id : TrajectorySignalId
  label : String
  timeframe : KpiComparisonTimeframe
  currentStartMonth : Option MonthKey
  currentEndMonth : Option MonthKey
  previousStartMonth : Option MonthKey
  previousEndMonth : Option MonthKey
  currentMonthCount : ℕ
  previousMonthCount : ℕ
  currentNetCashFlow : ℚ
  previousNetCashFlow : ℚ
  delta : ℚ
  percentChange : Option ℚ
  direction : TrendDirection
  light : TrafficLight
  hasSufficientHistory : Bool

/-- The per-signal body of the `TRAJECTORY_SIGNALS.map` closure in
`computeTrajectorySignals`. The comparison map always holds every
timeframe, so the optional-chaining fallbacks of the source
(`source?.`, `?? 0`) are dead and the lookup is a total function. -/
def mkTrajectorySignal (comparisons : KpiComparisonTimeframe → KpiTimeframeComparison)
    (signal : TrajectorySignalConfig) : TrajectorySignal :=
  (fun signal =>
    let source := comparisons signal.timeframe
    let net := source.netCashFlow
    let hasSufficientHistory : Bool :=
      decide (0 < source.currentMonthCount) && decide (0 < source.previousMonthCount)
    let delta := net.delta
    let direction :=
      if hasSufficientHistory = true then trendFromDelta delta else TrendDirection.flat
    let light :=
      if hasSufficientHistory = false then TrafficLight.neutral
      else
        match direction with
        | TrendDirection.up => TrafficLight.green
        | TrendDirection.down => TrafficLight.red
        | TrendDirection.flat => TrafficLight.neutral
    { id := signal.id, label := signal.label, timeframe := signal.timeframe,
      currentStartMonth := source.currentStartMonth,
      currentEndMonth := source.currentEndMonth,
      previousStartMonth := source.previousStartMonth,
      previousEndMonth := source.previousEndMonth,
      currentMonthCount := source.currentMonthCount,
      previousMonthCount := source.previousMonthCount,
      currentNetCashFlow := round2 net.current,
      previousNetCashFlow := round2 net.previous,
      delta := round2 delta,
      percentChange := if hasSufficientHistory = true then net.percentChange else none,
      direction := direction,
      light := light,
      hasSufficientHistory := hasSufficientHistory }) signal

/-- `computeTrajectorySignals` from the source. -/
def computeTrajectorySignals
    (comparisons : KpiComparisonTimeframe → KpiTimeframeComparison) :
    List TrajectorySignal :=
  TRAJECTORY_SIGNALS.map (mkTrajectorySignal comparisons)

structure LinearRegressionResult where
  slope : ℚ
  intercept : ℚ
  rSquared : ℚ

/-- `linearRegression` from the source: ordinary least squares against the
index axis 0..n-1, with epsilon guards on the slope denominator and on the
total sum of squares, and the R-squared clamped at 0. -/
def linearRegression (values : List ℚ) : LinearRegressionResult :=
  if values = [] then { slope := 0, intercept := 0, rSquared := 0 }
  else
    let n := values.length
    let xMean := ((n : ℚ) - 1) / 2
    let yMean := average values
    let numerator := sumBy (fun p => ((p.1 : ℚ) - xMean) * (p.2 - yMean)) values.enum
    let denominator := sumBy (fun p => ((p.1 : ℚ) - xMean) * ((p.1 : ℚ) - xMean)) values.enum
    let slope := if |denominator| ≤ EPSILON then 0 else numerator / denominator
    let intercept := yMean - slope * xMean
    let ssRes := sumBy (fun p => (p.2 - (intercept + slope * (p.1 : ℚ))) ^ 2) values.enum
    let ssTot := sumBy (fun v => (v - yMean) ^ 2) values
    let rSquared := if |ssTot| ≤ EPSILON then 0 else max 0 (1 - ssRes / ssTot)
    { slope := slope, intercept := intercept, rSquared := rSquared }

inductive TrendMethod
  | linearTrend
  | rollingAverage
  deriving DecidableEq

structure TrendModel where
  method : TrendMethod
  slope : ℚ
  rSquared : ℚ
  rollingWindow : ℕ
  fitAtIndex : ℕ → ℚ
  projectAtOffset : ℕ → ℚ

/-- The confidence gate of `buildTrendModel`. -/
def hasConfidentTrend (values : List ℚ) : Prop :=
  6 ≤ values.length ∧
    (35 / 100 : ℚ) ≤ (linearRegression values).rSquared ∧
    max ((listMax values - listMin values) * (3 / 100))
        (max (|average (values.drop (values.length - max 1 (min 3 values.length)))| * (5 / 1000)) 1) ≤
      |(linearRegression values).slope|

instance (values : List ℚ) : Decidable (hasConfidentTrend values) :=
  inferInstanceAs (Decidable (_ ∧ _ ∧ _))

/-- `buildTrendModel` from the source. `valueRange` is written without its
length guard: `listMax` and `listMin` are both 0 on the empty list, which
gives the same 0 range the guard produces. -/
def buildTrendModel (values : List ℚ) : TrendModel :=
  let rollingWindow := max 1 (min 3 values.length)
  let rollingBaseline := average (values.drop (values.length - rollingWindow))
  let regression := linearRegression values
  if hasConfidentTrend values then
    { method := TrendMethod.linearTrend,
      slope := regression.slope,
      rSquared := regression.rSquared,
      rollingWindow := rollingWindow,
      fitAtIndex := fun index => regression.intercept + regression.slope * (index : ℚ),
      projectAtOffset := fun offset =>
        regression.intercept + regression.slope * ((values.length : ℚ) - 1 + (offset : ℚ)) }
  else
    { method := TrendMethod.rollingAverage,
      slope := averageMonthOverMonthDelta
        (values.drop (values.length - max 2 (min 6 values.length))),
      rSquared := regression.rSquared,
      rollingWindow := rollingWindow,
      fitAtIndex := fun _ => rollingBaseline,
      projectAtOffset := fun _ => rollingBaseline }

/-- The per-calendar-month residual groups of `detectExpenseSeasonality`:
for month number `m` (1..12), the residuals (expense minus fitted trend)
of the rollups whose month number is `m`, in rollup order. -/
def seasonGroup (monthlyRollups : List MonthlyRollup) (fit : ℕ → ℚ) (monthNumber : ℤ) :
    List ℚ :=
  monthlyRollups.enum.filterMap (fun p =>
    if monthNumberOf p.2.month = monthNumber then some (p.2.expenses - fit p.1) else none)

/-- The month numbers 1..12, the index space of `adjustmentsByMonth`. -/
def monthNumberRange : List ℤ :=
  [1, 2, 3, 4, 5, 6, 7, 8, 9, 10, 11, 12]

structure SeasonalityDetection where
  isConfident : Bool
  adjustmentsByMonth : ℤ → ℚ
  uniqueMonths : ℕ

/-- `detectExpenseSeasonality` from the source. Group-size-weighted mean
residuals per calendar month number, re-centered by the weighted mean;
the confidence gate needs 18 months of history, 10 distinct month
numbers, and a seasonal signal. Standard-deviation comparisons are
carried on variances (squares), and the reporting-only fields (strength,
autocorrelation value, reason text) are not stored. -/
def detectExpenseSeasonality (monthlyRollups : List MonthlyRollup)
    (expenseTrendModel : TrendModel) : SeasonalityDetection :=
  let fit := expenseTrendModel.fitAtIndex
  let group := seasonGroup monthlyRollups fit
  let weightedSum := sumBy (fun m => ((group m).length : ℚ) * average (group m)) monthNumberRange
  let weightedCount := sumBy (fun m => ((group m).length : ℚ)) monthNumberRange
  let centeredOffset := if 0 < weightedCount then weightedSum / weightedCount else 0
  let adjustmentsByMonth : ℤ → ℚ := fun m =>
    if 1 ≤ m ∧ m ≤ 12 ∧ group m ≠ [] then average (group m) - centeredOffset else 0
  let adjustedResiduals := monthlyRollups.enum.map (fun p =>
    let monthNumber := monthNumberOf p.2.month
    let seasonal := if 1 ≤ monthNumber ∧ monthNumber ≤ 12 then adjustmentsByMonth monthNumber else 0
    p.2.expenses - fit p.1 - seasonal)
  let observedMonths := monthNumberRange.filter (fun m => decide (group m ≠ []))
  let seasonalValues := observedMonths.map adjustmentsByMonth
  let autocorrelation12 := autocorrelation (monthlyRollups.map (·.expenses)) 12
  let hasEnoughHistory : Bool := decide (18 ≤ monthlyRollups.length)
  let hasCoverage : Bool := decide (10 ≤ observedMonths.length)
  let hasSignal : Bool :=
    (decide (EPSILON ^ 2 < variancePop adjustedResiduals) &&
      decide ((45 / 100 : ℚ) ^ 2 * variancePop adjustedResiduals ≤ variancePop seasonalValues)) ||
    decide ((35 / 100 : ℚ) ≤ autocorrelation12)
  { isConfident := hasEnoughHistory && hasCoverage && hasSignal,
    adjustmentsByMonth := adjustmentsByMonth,
    uniqueMonths := observedMonths.length }

inductive ForecastStatus
  | actual
  | projected
  deriving DecidableEq

structure CashFlowForecastPoint where
  month : MonthKey
  revenue : ℚ
  expenses : ℚ
  netCashFlow : ℚ
  status : ForecastStatus
  deriving DecidableEq

/-- `buildCashFlowForecastSeries` from the source: actual rows for every
rollup, then `projectionMonths` projected rows, each one calendar month
after the previous, with trend projections floored at zero and (when the
seasonality detection is confident) the seasonal expense adjustment added
before flooring. The empty-input early return and the latest-month access
are merged into one `getLast?` match; the model-notes strings are
presentation only and are omitted. -/
def buildCashFlowForecastSeries (monthlyRollups : List MonthlyRollup)
    (projectionMonths : ℕ) : List CashFlowForecastPoint :=
  match monthlyRollups.getLast? with
  | none => []
  | some latest =>
    let actualRows := monthlyRollups.map (fun rollup =>
      { month := rollup.month, revenue := rollup.revenue, expenses := rollup.expenses,
        netCashFlow := rollup.netCashFlow, status := ForecastStatus.actual })
    let revenueTrendModel := buildTrendModel (monthlyRollups.map (·.revenue))
    let expenseTrendModel := buildTrendModel (monthlyRollups.map (·.expenses))
    let expenseSeasonality := detectExpenseSeasonality monthlyRollups expenseTrendModel
    let projectedRows := (List.range projectionMonths).map (fun j =>
      let index : ℕ := j + 1
      let month := addMonths latest.month (index : ℤ)
      let monthNumber := monthNumberOf month
      let projectedRevenue := round2 (max (revenueTrendModel.projectAtOffset index) 0)
      let seasonalExpenseAdjustment :=
        if expenseSeasonality.isConfident = true ∧ 1 ≤ monthNumber ∧ monthNumber ≤ 12 then
          expenseSeasonality.adjustmentsByMonth monthNumber
        else 0
      let projectedExpenses :=
        round2 (max (expenseTrendModel.projectAtOffset index + seasonalExpenseAdjustment) 0)
      { month := month, revenue := projectedRevenue, expenses := projectedExpenses,
        netCashFlow := round2 (projectedRevenue - projectedExpenses),
        status := ForecastStatus.projected })
    actualRows ++ projectedRows

structure ScenarioInput where
  revenueGrowthPct : ℚ
  expenseReductionPct : ℚ
  months : ℕ

structure ScenarioPoint where
  month : MonthKey
  projectedIncome : ℚ
  projectedExpense : ℚ
  projectedNet : ℚ
  cumulativeNet : ℚ
  deriving DecidableEq

/-- The slice of the `DashboardModel` that `projectScenario` reads. A
model built by `computeDashboardModel` has `latestMonth` equal to the
month of the last rollup (the empty string, modelled as `none`, only when
there are no rollups). -/
structure DashboardModelSlice where
  latestMonth : Option MonthKey
  monthlyRollups : List MonthlyRollup

/-- The projection loop of `projectScenario`, carrying the running month
index and the accumulated cumulative net. -/
def buildScenarioRows (latestMonth : MonthKey)
    (baselineRevenue baselineExpense growthFactor expenseFactor : ℚ) :
    ℕ → ℚ → ℕ → List ScenarioPoint
  | _, _, 0 => []
  | index, cumulativeNet, remaining + 1 =>
    let projectedIncome := round2 (baselineRevenue * growthFactor ^ index)
    let projectedExpense := round2 (baselineExpense * expenseFactor ^ index)
    let projectedNet := round2 (projectedIncome - projectedExpense)
    let nextCumulative := round2 (cumulativeNet + projectedNet)
    { month := addMonths latestMonth (index : ℤ),
      projectedIncome := projectedIncome,
      projectedExpense := projectedExpense,
      projectedNet := projectedNet,
      cumulativeNet := nextCumulative } ::
      buildScenarioRows latestMonth baselineRevenue baselineExpense growthFactor expenseFactor
        (index + 1) nextCumulative remaining

/-- `projectScenario` from the source: trailing-3-month baselines, then
compound growth/decay per projected month with a running cumulative net. -/
def projectScenario (model : DashboardModelSlice) (input : ScenarioInput) :
    List ScenarioPoint :=
  match model.latestMonth with
  | none => []
  | some latestMonth =>
    if model.monthlyRollups = [] then []
    else
      let baselineMonths := model.monthlyRollups.drop (model.monthlyRollups.length - 3)
      let baselineRevenue :=
        sumBy (·.revenue) baselineMonths / max (baselineMonths.length : ℚ) 1
      let baselineExpense :=
        sumBy (·.expenses) baselineMonths / max (baselineMonths.length : ℚ) 1
      let growthFactor := 1 + input.revenueGrowthPct / 100
      let expenseFactor := 1 - input.expenseReductionPct / 100
      buildScenarioRows latestMonth baselineRevenue baselineExpense growthFactor expenseFactor
        1 0 input.months

/-- The trailing-3-month baseline window of `projectScenario`. -/
def scenarioBaselineMonths (model : DashboardModelSlice) : List MonthlyRollup :=
  model.monthlyRollups.drop (model.monthlyRollups.length - 3)

/-- The baseline revenue of `projectScenario`: the trailing-3-month
average revenue. -/
def scenarioBaselineRevenue (model : DashboardModelSlice) : ℚ :=
  sumBy (·.revenue) (scenarioBaselineMonths model) /
    max ((scenarioBaselineMonths model).length : ℚ) 1

/-- The baseline expense of `projectScenario`: the trailing-3-month
average expenses. -/
def scenarioBaselineExpense (model : DashboardModelSlice) : ℚ :=
  sumBy (·.expenses) (scenarioBaselineMonths model) /
    max ((scenarioBaselineMonths model).length : ℚ) 1

/-- The compound growth factor `1 + revenueGrowthPct / 100`. -/
def scenarioGrowthFactor (input : ScenarioInput) : ℚ :=
  1 + input.revenueGrowthPct / 100

/-- The compound decay factor `1 - expenseReductionPct / 100`. -/
def scenarioExpenseFactor (input : ScenarioInput) : ℚ :=
  1 - input.expenseReductionPct / 100

/-- The projected net of scenario month `k`: rounded projected revenue
minus rounded projected expense. -/
def scenarioNetAt (baselineRevenue baselineExpense growthFactor expenseFactor : ℚ)
    (k : ℕ) : ℚ :=
  round2 (baselineRevenue * growthFactor ^ k) - round2 (baselineExpense * expenseFactor ^ k)

/-- An exact multiple of one cent. Monetary inputs at cent precision are
closed under the accumulation the rollup builder performs, and `round2`
is the identity on them. -/
def IsCent (q : ℚ) : Prop :=
  ∃ k : ℤ, q = (k : ℚ) / 100

/-- The revenue contribution of one transaction to its month. -/
def incomeAmt (t : Txn) : ℚ :=
  if t.type = TxnType.income then t.amount else 0

/-- The expense contribution of one transaction to its month. -/
def expenseAmt (t : Txn) : ℚ :=
  if t.type = TxnType.income then 0 else t.amount

/-- The capital-distribution contribution of one transaction. -/
def cdAmt (t : Txn) : ℚ :=
  if t.type = TxnType.income then 0
  else if isCapitalDistribution t.category then t.amount else 0

/-- Sum of the amounts of the expense transactions of month `mo` whose
category matches the capital-distribution rule: the quantity the claims
call `capitalDistribution`. -/
def capitalDistributionSum (txns : List Txn) (mo : MonthKey) : ℚ :=
  sumBy (·.amount) (txns.filter (fun t =>
    decide (t.month = mo) && decide (t.type = TxnType.expense) &&
      isCapitalDistribution t.category))

/-- Effective expenses under a cash-flow mode. -/
def effectiveExpensesFor (mode : CashFlowMode) (expenses capitalDistribution : ℚ) : ℚ :=
  if mode = CashFlowMode.operating then expenses - capitalDistribution else expenses

/-- The distinct elements of a list in first-occurrence order: the key
order of an insertion-ordered map fed by the list. -/
def firstKeys [DecidableEq α] : List α → List α
  | [] => []
  | a :: as => a :: (firstKeys as).filter (fun b => decide (b ≠ a))

/-- The accumulator entry a month ends with: the fold of the accumulation
body over the transactions of that month. -/
def monthAgg (mode : CashFlowMode) (mo : MonthKey) (ts : List Txn) : InternalMonthlyRollup :=
  ts.foldl (updateRollup mode) (emptyRollup mo)

/-- The accumulator entry for month `mo` produced from a transaction
list: the fold over the transactions of that month in list order. -/
def rollupForMonth (mode : CashFlowMode) (txns : List Txn) (mo : MonthKey) :
    InternalMonthlyRollup :=
  monthAgg mode mo (txns.filter (fun t => decide (t.month = mo)))

/-- The enumeration of the trailing timeframes of the comparison engine
and their window sizes: `thisMonth` 1, `last3Months` 3, `ttm` 12,
`last24Months` 24, `last36Months` 36 (`ytd` is the one non-trailing
comparison timeframe). -/
inductive TrailingTimeframe
  | thisMonth
  | last3Months
  | ttm
  | last24Months
  | last36Months
  deriving DecidableEq

def TrailingTimeframe.toTimeframe : TrailingTimeframe → KpiComparisonTimeframe
  | TrailingTimeframe.thisMonth => KpiComparisonTimeframe.thisMonth
  | TrailingTimeframe.last3Months => KpiComparisonTimeframe.last3Months
  | TrailingTimeframe.ttm => KpiComparisonTimeframe.ttm
  | TrailingTimeframe.last24Months => KpiComparisonTimeframe.last24Months
  | TrailingTimeframe.last36Months => KpiComparisonTimeframe.last36Months

def TrailingTimeframe.count : TrailingTimeframe → ℕ
  | TrailingTimeframe.thisMonth => 1
  | TrailingTimeframe.last3Months => 3
  | TrailingTimeframe.ttm => 12
  | TrailingTimeframe.last24Months => 24
  | TrailingTimeframe.last36Months => 36

theorem monthIdx_addMonths (m : MonthKey) (k : ℤ) :
    monthIdx (addMonths m k) = monthIdx m + k := by
  simp only [addMonths, monthIdx]
  omega

theorem addMonths_mo_bounds (m : MonthKey) (k : ℤ) :
    1 ≤ (addMonths m k).mo ∧ (addMonths m k).mo ≤ 12 := by
  simp only [addMonths, monthIdx]
  omega

theorem addMonths_addMonths (m : MonthKey) (a b : ℤ) :
    addMonths (addMonths m a) b = addMonths m (a + b) := by
  simp only [addMonths, monthIdx, MonthKey.mk.injEq]
  omega

theorem monthLt_of_monthIdx_lt {a b : MonthKey} (ha1 : 1 ≤ a.mo) (ha2 : a.mo ≤ 12)
    (hb1 : 1 ≤ b.mo) (hb2 : b.mo ≤ 12) (h : monthIdx a < monthIdx b) : monthLt a b := by
  simp only [monthIdx] at h
  simp only [monthLt]
  omega

theorem monthLt_addMonths_of_pos {m : MonthKey} (h1 : 1 ≤ m.mo) (h2 : m.mo ≤ 12)
    {k : ℤ} (hk : 0 < k) : monthLt m (addMonths m k) := by
  have hb := addMonths_mo_bounds m k
  refine monthLt_of_monthIdx_lt h1 h2 hb.1 hb.2 ?_
  rw [monthIdx_addMonths]
  omega

theorem isCent_zero : IsCent 0 :=
  ⟨0, by norm_num⟩

theorem isCent_add {a b : ℚ} (ha : IsCent a) (hb : IsCent b) : IsCent (a + b) := by
  obtain ⟨j, rfl⟩ := ha
  obtain ⟨k, rfl⟩ := hb
  exact ⟨j + k, by push_cast; ring⟩

theorem isCent_sub {a b : ℚ} (ha : IsCent a) (hb : IsCent b) : IsCent (a - b) := by
  obtain ⟨j, rfl⟩ := ha
  obtain ⟨k, rfl⟩ := hb
  exact ⟨j - k, by push_cast; ring⟩

theorem isCent_sum {l : List ℚ} (h : ∀ x ∈ l, IsCent x) : IsCent l.sum := by
  induction l with
  | nil => simpa using isCent_zero
  | cons a as ih =>
    rw [List.sum_cons]
    exact isCent_add (h a (List.mem_cons_self a as)) (ih fun x hx => h x (List.mem_cons_of_mem a hx))

theorem isCent_sumBy {f : α → ℚ} {l : List α} (h : ∀ x ∈ l, IsCent (f x)) :
    IsCent (sumBy f l) := by
  refine isCent_sum ?_
  intro x hx
  obtain ⟨a, ha, rfl⟩ := List.mem_map.mp hx
  exact h a ha

theorem round2_of_isCent {q : ℚ} (h : IsCent q) : round2 q = q := by
  obtain ⟨k, rfl⟩ := h
  unfold round2
  have h100 : ((k : ℚ) / 100) * 100 = (k : ℚ) :=
    div_mul_cancel₀ _ (by norm_num)
  rw [h100, Int.floor_int_add]
  norm_num

theorem isCent_round2 (q : ℚ) : IsCent (round2 q) :=
  ⟨⌊q * 100 + 1 / 2⌋, rfl⟩

/-- Claim C2: a percent change computed by `pctDelta` (and therefore by
`compareMetric`, which delegates to it) is `null` exactly when the
absolute previous value is within the epsilon guard — in particular it is
`null` when the previous value is exactly 0 — and otherwise equals
`(current - previous) / |previous| * 100`. -/
theorem pctDelta_null_iff (current previous : ℚ) :
    (pctDelta current previous = none ↔ |previous| ≤ EPSILON) ∧
    (EPSILON < |previous| →
      pctDelta current previous = some ((current - previous) / |previous| * 100)) ∧
    pctDelta current 0 = none ∧
    (compareMetric current previous).percentChange = pctDelta current previous := by
  refine ⟨?_, ?_, ?_, rfl⟩
  · unfold pctDelta
    split_ifs with h <;> simp [h]
  · intro h
    unfold pctDelta
    rw [if_neg (by linarith)]
  · norm_num [pctDelta, EPSILON]

theorem updateRollup_eq (mode : CashFlowMode) (r : InternalMonthlyRollup) (t : Txn) :
    updateRollup mode r t =
      { month := r.month,
        revenue := r.revenue + incomeAmt t,
        expenses := r.expenses + expenseAmt t,
        netCashFlow := r.revenue + incomeAmt t -
          effectiveExpensesFor mode (r.expenses + expenseAmt t)
            (r.capitalDistribution + cdAmt t),
        savingsRate := r.savingsRate,
        transactionCount := r.transactionCount + 1,
        capitalDistribution := r.capitalDistribution + cdAmt t } := by
  by_cases h : t.type = TxnType.income <;>
    simp [updateRollup, h, incomeAmt, expenseAmt, cdAmt, effectiveExpensesFor]

theorem sumBy_nil (f : α → ℚ) : sumBy f [] = 0 := by
  simp [sumBy]

theorem sumBy_cons (f : α → ℚ) (a : α) (l : List α) :
    sumBy f (a :: l) = f a + sumBy f l := by
  simp [sumBy]

theorem sumBy_append (f : α → ℚ) (l₁ l₂ : List α) :
    sumBy f (l₁ ++ l₂) = sumBy f l₁ + sumBy f l₂ := by
  simp [sumBy]

theorem foldl_updateRollup_eq (mode : CashFlowMode) (ts : List Txn) :
    ∀ r0 : InternalMonthlyRollup,
      ts.foldl (updateRollup mode) r0 =
        { month := r0.month,
          revenue := r0.revenue + sumBy incomeAmt ts,
          expenses := r0.expenses + sumBy expenseAmt ts,
          netCashFlow :=
            if ts = [] then r0.netCashFlow
            else r0.revenue + sumBy incomeAmt ts -
              effectiveExpensesFor mode (r0.expenses + sumBy expenseAmt ts)
                (r0.capitalDistribution + sumBy cdAmt ts),
          savingsRate := r0.savingsRate,
          transactionCount := r0.transactionCount + ts.length,
          capitalDistribution := r0.capitalDistribution + sumBy cdAmt ts } := by
  induction ts with
  | nil =>
    intro r0
    simp [sumBy]
  | cons t ts ih =>
    intro r0
    rw [List.foldl_cons, ih (updateRollup mode r0 t), updateRollup_eq]
    by_cases hts : ts = [] <;>
      simp [hts, sumBy_cons, sumBy_nil, InternalMonthlyRollup.mk.injEq, add_assoc,
        Nat.add_comm]

theorem monthAgg_eq (mode : CashFlowMode) (mo : MonthKey) (ts : List Txn) :
    monthAgg mode mo ts =
      { month := mo,
        revenue := sumBy incomeAmt ts,
        expenses := sumBy expenseAmt ts,
        netCashFlow :=
          if ts = [] then 0
          else sumBy incomeAmt ts -
            effectiveExpensesFor mode (sumBy expenseAmt ts) (sumBy cdAmt ts),
        savingsRate := 0,
        transactionCount := ts.length,
        capitalDistribution := sumBy cdAmt ts } := by
  unfold monthAgg
  rw [foldl_updateRollup_eq]
  simp [emptyRollup]

theorem rollupForMonth_month (mode : CashFlowMode) (txns : List Txn) (mo : MonthKey) :
    (rollupForMonth mode txns mo).month = mo := by
  simp [rollupForMonth, monthAgg_eq]

theorem mem_firstKeys [DecidableEq α] (x : α) :
    ∀ xs : List α, x ∈ firstKeys xs ↔ x ∈ xs := by
  intro xs
  induction xs with
  | nil => simp [firstKeys]
  | cons a as ih =>
    simp only [firstKeys, List.mem_cons, List.mem_filter, decide_eq_true_eq]
    by_cases hxa : x = a
    · simp [hxa]
    · simp [hxa, ih]

theorem nodup_firstKeys [DecidableEq α] : ∀ xs : List α, (firstKeys xs).Nodup := by
  intro xs
  induction xs with
  | nil => simp [firstKeys]
  | cons a as ih =>
    rw [firstKeys, List.nodup_cons]
    refine ⟨?_, ih.filter _⟩
    intro hmem
    have := (List.mem_filter.mp hmem).2
    simp at this

theorem firstKeys_append_singleton [DecidableEq α] (xs : List α) (x : α) :
    firstKeys (xs ++ [x]) = if x ∈ xs then firstKeys xs else firstKeys xs ++ [x] := by
  induction xs with
  | nil => simp [firstKeys]
  | cons a as ih =>
    rw [List.cons_append, firstKeys, ih, firstKeys]
    by_cases hx : x ∈ as
    · simp [hx]
    · by_cases hxa : x = a
      · subst hxa
        simp [hx, List.filter_append]
      · simp only [hx, if_false, List.filter_append, List.mem_cons, hxa, false_or]
        simp [Ne.symm hxa, hxa]

theorem insertTxn_map_not_mem (mode : CashFlowMode)
    {f : MonthKey → InternalMonthlyRollup} (hf : ∀ k, (f k).month = k) (x : Txn) :
    ∀ ks : List MonthKey, x.month ∉ ks →
      insertTxn mode (ks.map f) x = ks.map f ++ [updateRollup mode (emptyRollup x.month) x] := by
  intro ks
  induction ks with
  | nil => intro _; simp [insertTxn]
  | cons k ks ih =>
    intro hmem
    rw [List.map_cons, insertTxn]
    rw [if_neg (by rw [hf k]; intro h; exact hmem (by simp [h]))]
    rw [ih (fun h => hmem (List.mem_cons_of_mem k h)), List.cons_append]

theorem insertTxn_map_mem (mode : CashFlowMode)
    {f : MonthKey → InternalMonthlyRollup} (hf : ∀ k, (f k).month = k) (x : Txn) :
    ∀ ks : List MonthKey, ks.Nodup → x.month ∈ ks →
      insertTxn mode (ks.map f) x =
        ks.map (fun k => if k = x.month then updateRollup mode (f k) x else f k) := by
  intro ks
  induction ks with
  | nil => intro _ h; exact absurd h (List.not_mem_nil _)
  | cons k ks ih =>
    intro hnd hmem
    rw [List.map_cons, insertTxn, List.map_cons]
    by_cases hk : k = x.month
    · rw [if_pos (by rw [hf k]; exact hk), if_pos hk]
      congr 1
      apply List.map_congr_left
      intro j hj
      rw [if_neg]
      intro hj'
      exact (List.nodup_cons.mp hnd).1 (by rw [hk, ← hj']; exact hj)
    · rw [if_neg (by rw [hf k]; exact hk), if_neg hk]
      have hmem' : x.month ∈ ks := by
        rcases List.mem_cons.mp hmem with h | h
        · exact absurd h.symm hk
        · exact h
      rw [ih (List.nodup_cons.mp hnd).2 hmem']

theorem rollupForMonth_append_other (mode : CashFlowMode) (xs : List Txn) (x : Txn)
    {mo : MonthKey} (h : ¬ x.month = mo) :
    rollupForMonth mode (xs ++ [x]) mo = rollupForMonth mode xs mo := by
  unfold rollupForMonth
  rw [List.filter_append]
  simp [h]

theorem rollupForMonth_append_self (mode : CashFlowMode) (xs : List Txn) (x : Txn) :
    rollupForMonth mode (xs ++ [x]) x.month =
      updateRollup mode (rollupForMonth mode xs x.month) x := by
  unfold rollupForMonth monthAgg
  rw [List.filter_append]
  simp only [List.filter_cons, List.filter_nil, decide_True, if_true]
  rw [List.foldl_append]
  simp

theorem rollupForMonth_single (mode : CashFlowMode) (xs : List Txn) (x : Txn)
    (h : x.month ∉ xs.map (·.month)) :
    rollupForMonth mode (xs ++ [x]) x.month = updateRollup mode (emptyRollup x.month) x := by
  rw [rollupForMonth_append_self]
  have hnil : xs.filter (fun t => decide (t.month = x.month)) = [] := by
    rw [List.filter_eq_nil_iff]
    intro t ht
    simp only [decide_eq_true_eq]
    intro h'
    exact h (by rw [← h']; exact List.mem_map_of_mem _ ht)
  unfold rollupForMonth monthAgg
  rw [hnil, List.foldl_nil]

theorem foldl_insertTxn_eq (mode : CashFlowMode) (txns : List Txn) :
    txns.foldl (insertTxn mode) [] =
      (firstKeys (txns.map (·.month))).map (rollupForMonth mode txns) := by
  induction txns using List.reverseRecOn with
  | nil => simp [firstKeys]
  | append_singleton xs x ih =>
    rw [List.foldl_append, List.foldl_cons, List.foldl_nil, ih]
    have hmaps : (xs ++ [x]).map (fun t => t.month) = xs.map (fun t => t.month) ++ [x.month] := by
      simp
    by_cases hmem : x.month ∈ xs.map (fun t => t.month)
    · rw [insertTxn_map_mem mode (rollupForMonth_month mode xs) x _ (nodup_firstKeys _)
        ((mem_firstKeys _ _).mpr hmem)]
      rw [hmaps, firstKeys_append_singleton, if_pos hmem]
      apply List.map_congr_left
      intro k hk
      by_cases hkx : k = x.month
      · rw [if_pos hkx, hkx, ← rollupForMonth_append_self]
      · rw [if_neg hkx, rollupForMonth_append_other mode xs x (fun h => hkx h.symm)]
    · rw [insertTxn_map_not_mem mode (rollupForMonth_month mode xs) x _
        ((fun h => hmem ((mem_firstKeys _ _).mp h)))]
      rw [hmaps, firstKeys_append_singleton, if_neg hmem, List.map_append]
      congr 1
      · apply List.map_congr_left
        intro k hk
        have hkx : ¬ x.month = k := by
          intro h
          exact hmem (by rw [h]; exact (mem_firstKeys _ _).mp hk)
        rw [rollupForMonth_append_other mode xs x hkx]
      · simp only [List.map_cons, List.map_nil]
        rw [rollupForMonth_single mode xs x hmem]

theorem orderedInsert_map {f : α → β} (r : α → α → Prop) (r' : β → β → Prop)
    [DecidableRel r] [DecidableRel r'] (hc : ∀ a b, r' (f a) (f b) ↔ r a b) (a : α) :
    ∀ l : List α, List.orderedInsert r' (f a) (l.map f) = (List.orderedInsert r a l).map f := by
  intro l
  induction l with
  | nil => rfl
  | cons b bs ih =>
    simp only [List.map_cons, List.orderedInsert]
    by_cases h : r a b
    · rw [if_pos ((hc a b).mpr h), if_pos h, List.map_cons, List.map_cons]
    · rw [if_neg (fun hh => h ((hc a b).mp hh)), if_neg h, List.map_cons, ih]

theorem insertionSort_map {f : α → β} (r : α → α → Prop) (r' : β → β → Prop)
    [DecidableRel r] [DecidableRel r'] (hc : ∀ a b, r' (f a) (f b) ↔ r a b) :
    ∀ l : List α, List.insertionSort r' (l.map f) = (List.insertionSort r l).map f := by
  intro l
  induction l with
  | nil => rfl
  | cons a as ih =>
    simp only [List.map_cons, List.insertionSort]
    rw [ih, orderedInsert_map r r' hc]

theorem computeMonthlyRollups_eq_canonical (txns : List Txn) (mode : CashFlowMode) :
    computeMonthlyRollups txns mode =
      (List.insertionSort monthLe (firstKeys (txns.map (·.month)))).map
        (fun mo => finalizeRollup (rollupForMonth mode txns mo)) := by
  unfold computeMonthlyRollups
  rw [foldl_insertTxn_eq]
  rw [insertionSort_map monthLe rollupMonthLe
    (fun a b => by
      unfold rollupMonthLe
      rw [rollupForMonth_month, rollupForMonth_month])]
  rw [List.map_map]
  rfl

theorem sumBy_perm (f : α → ℚ) {l l' : List α} (h : l.Perm l') : sumBy f l = sumBy f l' :=
  List.Perm.sum_eq (h.map f)

theorem rollupForMonth_perm (mode : CashFlowMode) {txns txns' : List Txn}
    (hp : txns.Perm txns') (mo : MonthKey) :
    rollupForMonth mode txns mo = rollupForMonth mode txns' mo := by
  unfold rollupForMonth
  have hf := hp.filter (fun t => decide (t.month = mo))
  rw [monthAgg_eq, monthAgg_eq]
  have h1 := sumBy_perm incomeAmt hf
  have h2 := sumBy_perm expenseAmt hf
  have h3 := sumBy_perm cdAmt hf
  have h4 := hf.length_eq
  have h5 : (txns.filter (fun t => decide (t.month = mo)) = []) ↔
      (txns'.filter (fun t => decide (t.month = mo)) = []) := by
    constructor <;> intro h
    · rw [h] at hf
      exact hf.symm.eq_nil
    · rw [h] at hf
      exact hf.eq_nil
  rw [h1, h2, h3, h4]
  simp only [h5]

theorem monthLt_of_le_ne {a b : MonthKey} (hle : monthLe a b) (hne : a ≠ b) :
    monthLt a b := by
  cases a
  cases b
  simp only [monthLe, monthLt, ne_eq, MonthKey.mk.injEq] at *
  omega

/-- Claim C8: the rollup builder is order-insensitive and idempotent — any
permutation of the transaction list produces the identical rollup list
(idempotence across repeated calls is definitional: the builder is a pure
function), and the output is strictly ascending by month. -/
theorem computeMonthlyRollups_perm_invariant (txns txns' : List Txn) (mode : CashFlowMode)
    (hp : txns.Perm txns') :
    computeMonthlyRollups txns mode = computeMonthlyRollups txns' mode ∧
    List.Pairwise (fun a b => monthLt a.month b.month) (computeMonthlyRollups txns mode) := by
  constructor
  · rw [computeMonthlyRollups_eq_canonical, computeMonthlyRollups_eq_canonical]
    have hperm : (firstKeys (txns.map (·.month))).Perm (firstKeys (txns'.map (·.month))) := by
      refine (List.perm_ext_iff_of_nodup (nodup_firstKeys _) (nodup_firstKeys _)).mpr ?_
      intro a
      rw [mem_firstKeys, mem_firstKeys]
      exact (hp.map _).mem_iff
    have hkeys : List.insertionSort monthLe (firstKeys (txns.map (·.month))) =
        List.insertionSort monthLe (firstKeys (txns'.map (·.month))) := by
      refine List.eq_of_perm_of_sorted ?_ (List.sorted_insertionSort monthLe _)
        (List.sorted_insertionSort monthLe _)
      exact ((List.perm_insertionSort _ _).trans hperm).trans
        (List.perm_insertionSort _ _).symm
    rw [hkeys]
    apply List.map_congr_left
    intro mo _
    rw [rollupForMonth_perm mode hp]
  · rw [computeMonthlyRollups_eq_canonical, List.pairwise_map]
    have hsorted := List.sorted_insertionSort monthLe (firstKeys (txns.map (·.month)))
    have hnd : (List.insertionSort monthLe (firstKeys (txns.map (·.month)))).Nodup :=
      ((List.perm_insertionSort _ _).nodup_iff).mpr (nodup_firstKeys _)
    have hlt : List.Pairwise (fun a b : MonthKey => monthLt a b)
        (List.insertionSort monthLe (firstKeys (txns.map (·.month)))) := by
      refine (hsorted.and hnd).imp ?_
      intro a b hab
      exact monthLt_of_le_ne hab.1 hab.2
    refine hlt.imp ?_
    intro a b hab
    simp only [finalizeRollup]
    rw [rollupForMonth_month, rollupForMonth_month]
    exact hab

theorem computeMonthlyRollups_perm_invariant_witness :
    computeMonthlyRollups
        [{ month := ⟨2024, 2⟩, type := TxnType.expense, amount := 3000, category := [] },
         { month := ⟨2024, 1⟩, type := TxnType.income, amount := 5000, category := [] }]
        CashFlowMode.operating =
      computeMonthlyRollups
        [{ month := ⟨2024, 1⟩, type := TxnType.income, amount := 5000, category := [] },
         { month := ⟨2024, 2⟩, type := TxnType.expense, amount := 3000, category := [] }]
        CashFlowMode.operating ∧
    List.Pairwise (fun a b => monthLt a.month b.month)
      (computeMonthlyRollups
        [{ month := ⟨2024, 2⟩, type := TxnType.expense, amount := 3000, category := [] },
         { month := ⟨2024, 1⟩, type := TxnType.income, amount := 5000, category := [] }]
        CashFlowMode.operating) :=
  computeMonthlyRollups_perm_invariant _ _ CashFlowMode.operating (List.Perm.swap _ _ _)

/-- Claim C10: switching the cash-flow mode is invisible to every rollup
field except `netCashFlow` and `savingsRate` — the two mode outputs have
the same months in the same order with identical revenue, expenses and
transaction counts. -/
theorem computeMonthlyRollups_mode_frame (txns : List Txn) :
    (computeMonthlyRollups txns CashFlowMode.operating).map
        (fun r => (r.month, r.revenue, r.expenses, r.transactionCount)) =
      (computeMonthlyRollups txns CashFlowMode.total).map
        (fun r => (r.month, r.revenue, r.expenses, r.transactionCount)) := by
  rw [computeMonthlyRollups_eq_canonical, computeMonthlyRollups_eq_canonical,
    List.map_map, List.map_map]
  apply List.map_congr_left
  intro mo _
  simp only [Function.comp_apply]
  unfold rollupForMonth
  rw [monthAgg_eq, monthAgg_eq]
  simp [finalizeRollup]

theorem capitalDistributionSum_eq (txns : List Txn) (mo : MonthKey) :
    capitalDistributionSum txns mo =
      sumBy cdAmt (txns.filter (fun t => decide (t.month = mo))) := by
  induction txns with
  | nil => simp [capitalDistributionSum, sumBy]
  | cons t ts ih =>
    unfold capitalDistributionSum at *
    simp only [List.filter_cons]
    by_cases hm : t.month = mo
    · rcases htype : t.type with _ | _
      · simp [hm, htype, sumBy_cons, cdAmt, ih]
      · by_cases hcap : isCapitalDistribution t.category
        · simp [hm, htype, hcap, sumBy_cons, cdAmt, ih]
        · simp [hm, htype, hcap, sumBy_cons, cdAmt, ih]
    · simp [hm, sumBy_cons, ih]

/-- Claim C1 (amended): for transactions whose amounts are whole cents
(integer multiples of 0.01 — the case the two-decimal output rounding is
the identity on), every rollup satisfies
`netCashFlow = revenue - (expenses - capitalDistribution)` in operating
mode and `netCashFlow = revenue - expenses` in total mode, where
`capitalDistribution` is the sum of the amounts of that month's expense
transactions matching the capital-distribution category rule. For
amounts at sub-cent precision the identity can fail on the rounded
outputs (see the counterexample). -/
theorem computeMonthlyRollups_netCashFlow_cents (txns : List Txn) (mode : CashFlowMode)
    (hc : ∀ t ∈ txns, IsCent t.amount) :
    ∀ r ∈ computeMonthlyRollups txns mode,
      r.netCashFlow =
        r.revenue - (r.expenses -
          (if mode = CashFlowMode.operating then capitalDistributionSum txns r.month
           else 0)) := by
  intro r hr
  rw [computeMonthlyRollups_eq_canonical] at hr
  obtain ⟨mo, hmo, rfl⟩ := List.mem_map.mp hr
  have hmo' : mo ∈ txns.map (·.month) := by
    have hmem := (List.Perm.mem_iff (List.perm_insertionSort monthLe _)).mp hmo
    exact (mem_firstKeys _ _).mp hmem
  obtain ⟨t0, ht0, ht0m⟩ := List.mem_map.mp hmo'
  have hne : txns.filter (fun t => decide (t.month = mo)) ≠ [] := by
    intro h
    have hmem : t0 ∈ txns.filter (fun t => decide (t.month = mo)) :=
      List.mem_filter.mpr ⟨ht0, by simp [ht0m]⟩
    rw [h] at hmem
    exact (List.not_mem_nil _) hmem
  have hcs : ∀ t ∈ txns.filter (fun t => decide (t.month = mo)), IsCent t.amount :=
    fun t ht => hc t (List.mem_filter.mp ht).1
  have hinc : IsCent (sumBy incomeAmt (txns.filter (fun t => decide (t.month = mo)))) := by
    refine isCent_sumBy ?_
    intro t ht
    unfold incomeAmt
    split
    · exact hcs t ht
    · exact isCent_zero
  have hexp : IsCent (sumBy expenseAmt (txns.filter (fun t => decide (t.month = mo)))) := by
    refine isCent_sumBy ?_
    intro t ht
    unfold expenseAmt
    split
    · exact isCent_zero
    · exact hcs t ht
  have hcd : IsCent (sumBy cdAmt (txns.filter (fun t => decide (t.month = mo)))) := by
    refine isCent_sumBy ?_
    intro t ht
    unfold cdAmt
    split
    · exact isCent_zero
    · split
      · exact hcs t ht
      · exact isCent_zero
  rw [capitalDistributionSum_eq]
  unfold rollupForMonth at *
  rw [monthAgg_eq] at *
  simp only [finalizeRollup, if_neg hne]
  rw [round2_of_isCent hinc, round2_of_isCent hexp]
  rcases mode with _ | _
  · simp only [effectiveExpensesFor, eq_self_iff_true, if_true]
    rw [round2_of_isCent (isCent_sub hinc (isCent_sub hexp hcd))]
  · simp only [effectiveExpensesFor, reduceCtorEq, if_false]
    rw [round2_of_isCent (isCent_sub hinc hexp)]
    ring

theorem computeMonthlyRollups_netCashFlow_cents_witness :
    ({ month := ⟨2024, 1⟩, revenue := 5000, expenses := 3000, netCashFlow := 2000,
       savingsRate := 40, transactionCount := 2 } : MonthlyRollup).netCashFlow =
      ({ month := ⟨2024, 1⟩, revenue := 5000, expenses := 3000, netCashFlow := 2000,
         savingsRate := 40, transactionCount := 2 } : MonthlyRollup).revenue -
        (({ month := ⟨2024, 1⟩, revenue := 5000, expenses := 3000, netCashFlow := 2000,
            savingsRate := 40, transactionCount := 2 } : MonthlyRollup).expenses -
          (if CashFlowMode.total = CashFlowMode.operating then
            capitalDistributionSum
              [{ month := ⟨2024, 1⟩, type := TxnType.income, amount := 5000, category := [] },
               { month := ⟨2024, 1⟩, type := TxnType.expense, amount := 3000,
                 category := "Rent".toList }]
              ({ month := ⟨2024, 1⟩, revenue := 5000, expenses := 3000, netCashFlow := 2000,
                 savingsRate := 40, transactionCount := 2 } : MonthlyRollup).month
           else 0)) :=
  computeMonthlyRollups_netCashFlow_cents
    [{ month := ⟨2024, 1⟩, type := TxnType.income, amount := 5000, category := [] },
     { month := ⟨2024, 1⟩, type := TxnType.expense, amount := 3000,
       category := "Rent".toList }]
    CashFlowMode.total
    (by
      intro t ht
      rcases List.mem_cons.mp ht with rfl | ht2
      · exact ⟨500000, by norm_num⟩
      · rcases List.mem_cons.mp ht2 with rfl | ht3
        · exact ⟨300000, by norm_num⟩
        · exact absurd ht3 (List.not_mem_nil t))
    _
    (by
      have heval : computeMonthlyRollups
          [{ month := ⟨2024, 1⟩, type := TxnType.income, amount := 5000, category := [] },
           { month := ⟨2024, 1⟩, type := TxnType.expense, amount := 3000,
             category := "Rent".toList }]
          CashFlowMode.total =
          [{ month := ⟨2024, 1⟩, revenue := 5000, expenses := 3000, netCashFlow := 2000,
             savingsRate := 40, transactionCount := 2 }] := by
        norm_num +decide [computeMonthlyRollups, insertTxn, updateRollup, emptyRollup,
          finalizeRollup, round2, EPSILON, List.insertionSort, List.orderedInsert]
      rw [heval]
      exact List.mem_singleton.mpr rfl)

/-- The claim C1 identity fails on the rounded outputs at sub-cent
amounts: an income of 0.006 and an expense of 0.003 in one month produce
the rollup `revenue = 0.01, expenses = 0, netCashFlow = 0` in total mode,
and `0 ≠ 0.01 - 0`. -/
theorem computeMonthlyRollups_netCashFlow_subcent_cex :
    computeMonthlyRollups
        [{ month := ⟨2024, 1⟩, type := TxnType.income, amount := 6 / 1000, category := [] },
         { month := ⟨2024, 1⟩, type := TxnType.expense, amount := 3 / 1000, category := [] }]
        CashFlowMode.total =
      [{ month := ⟨2024, 1⟩, revenue := 1 / 100, expenses := 0, netCashFlow := 0,
         savingsRate := 50, transactionCount := 2 }] ∧
    ¬ ((0 : ℚ) = 1 / 100 - 0) := by
  constructor
  · norm_num +decide [computeMonthlyRollups, insertTxn, updateRollup, emptyRollup,
      finalizeRollup, round2, EPSILON, List.insertionSort, List.orderedInsert]
  · norm_num

theorem selectComparisonBlocks_trailing_eq (rollups : List MonthlyRollup)
    (ttf : TrailingTimeframe) :
    selectComparisonBlocks rollups ttf.toTimeframe =
      { current := selectTrailingRollups rollups ttf.count,
        previous := selectPriorTrailingBlock rollups ttf.count } := by
  rcases hlast : rollups.getLast? with _ | last
  · have hnil : rollups = [] := by
      cases rollups with
      | nil => rfl
      | cons r rs => simp at hlast
    subst hnil
    rcases ttf <;>
      simp [selectComparisonBlocks, selectTrailingRollups, selectPriorTrailingBlock,
        TrailingTimeframe.count, TrailingTimeframe.toTimeframe]
  · rcases ttf <;>
      simp [selectComparisonBlocks, hlast, TrailingTimeframe.toTimeframe,
        TrailingTimeframe.count]

theorem comparison_previous_empty (rollups : List MonthlyRollup)
    (tf : KpiComparisonTimeframe)
    (h : (selectComparisonBlocks rollups tf).previous = []) :
    (computeKpiComparisons rollups tf).previousMonthCount = 0 ∧
    (computeKpiComparisons rollups tf).revenue.percentChange = none ∧
    (computeKpiComparisons rollups tf).expenses.percentChange = none ∧
    (computeKpiComparisons rollups tf).netCashFlow.percentChange = none ∧
    (computeKpiComparisons rollups tf).savingsRate.percentChange = none := by
  unfold computeKpiComparisons
  dsimp only
  rw [h]
  norm_num [summarizeRollups, buildTimeframeComparison, compareMetric, pctDelta, EPSILON]

/-- Claim C3: for every trailing-N comparison timeframe the previous
block is all-or-nothing — empty whenever fewer than 2N months exist,
otherwise exactly the N months immediately preceding the trailing-N
current block — and an empty previous block makes the downstream
comparison report a previous summary with `monthCount = 0` and a `null`
percent change for every metric. -/
theorem selectComparisonBlocks_trailing_allOrNothing (rollups : List MonthlyRollup)
    (ttf : TrailingTimeframe) :
    (rollups.length < 2 * ttf.count →
      (selectComparisonBlocks rollups ttf.toTimeframe).previous = []) ∧
    (2 * ttf.count ≤ rollups.length →
      (selectComparisonBlocks rollups ttf.toTimeframe).current =
          rollups.drop (rollups.length - ttf.count) ∧
        (selectComparisonBlocks rollups ttf.toTimeframe).previous =
          (rollups.drop (rollups.length - 2 * ttf.count)).take ttf.count) ∧
    ((selectComparisonBlocks rollups ttf.toTimeframe).previous = [] →
      (computeKpiComparisons rollups ttf.toTimeframe).previousMonthCount = 0 ∧
      (computeKpiComparisons rollups ttf.toTimeframe).revenue.percentChange = none ∧
      (computeKpiComparisons rollups ttf.toTimeframe).expenses.percentChange = none ∧
      (computeKpiComparisons rollups ttf.toTimeframe).netCashFlow.percentChange = none ∧
      (computeKpiComparisons rollups ttf.toTimeframe).savingsRate.percentChange = none) := by
  have hcount : 0 < ttf.count := by
    rcases ttf <;> simp [TrailingTimeframe.count]
  refine ⟨?_, ?_, ?_⟩
  · intro h
    rw [selectComparisonBlocks_trailing_eq]
    unfold selectPriorTrailingBlock
    rw [if_neg (by omega), if_pos (by omega)]
  · intro h
    rw [selectComparisonBlocks_trailing_eq]
    constructor
    · unfold selectTrailingRollups
      rw [if_neg (by omega)]
    · unfold selectPriorTrailingBlock
      rw [if_neg (by omega), if_neg (by omega)]
      simp [Nat.mul_comm]
  · intro h
    exact comparison_previous_empty rollups ttf.toTimeframe h

theorem mkTrajectorySignal_spec
    (comparisons : KpiComparisonTimeframe → KpiTimeframeComparison)
    (cfg : TrajectorySignalConfig) :
    ((comparisons (mkTrajectorySignal comparisons cfg).timeframe).currentMonthCount = 0 ∨
        (comparisons (mkTrajectorySignal comparisons cfg).timeframe).previousMonthCount = 0 →
      (mkTrajectorySignal comparisons cfg).direction = TrendDirection.flat ∧
        (mkTrajectorySignal comparisons cfg).light = TrafficLight.neutral) ∧
    (0 < (comparisons (mkTrajectorySignal comparisons cfg).timeframe).currentMonthCount →
      0 < (comparisons (mkTrajectorySignal comparisons cfg).timeframe).previousMonthCount →
      ((|(comparisons (mkTrajectorySignal comparisons cfg).timeframe).netCashFlow.delta| ≤
          EPSILON →
          (mkTrajectorySignal comparisons cfg).direction = TrendDirection.flat) ∧
       (EPSILON <
          (comparisons (mkTrajectorySignal comparisons cfg).timeframe).netCashFlow.delta →
          (mkTrajectorySignal comparisons cfg).direction = TrendDirection.up) ∧
       ((comparisons (mkTrajectorySignal comparisons cfg).timeframe).netCashFlow.delta <
          -EPSILON →
          (mkTrajectorySignal comparisons cfg).direction = TrendDirection.down)) ∧
      (((mkTrajectorySignal comparisons cfg).direction = TrendDirection.up →
          (mkTrajectorySignal comparisons cfg).light = TrafficLight.green) ∧
       ((mkTrajectorySignal comparisons cfg).direction = TrendDirection.down →
          (mkTrajectorySignal comparisons cfg).light = TrafficLight.red) ∧
       ((mkTrajectorySignal comparisons cfg).direction = TrendDirection.flat →
          (mkTrajectorySignal comparisons cfg).light = TrafficLight.neutral))) := by
  have htf : (mkTrajectorySignal comparisons cfg).timeframe = cfg.timeframe := rfl
  rw [htf]
  by_cases h1 : 0 < (comparisons cfg.timeframe).currentMonthCount
  · by_cases h2 : 0 < (comparisons cfg.timeframe).previousMonthCount
    · constructor
      · intro hcontra
        rcases hcontra with hc | hc <;> omega
      · intro _ _
        set delta := (comparisons cfg.timeframe).netCashFlow.delta with hdelta
        have hsignal : mkTrajectorySignal comparisons cfg =
            { id := cfg.id, label := cfg.label, timeframe := cfg.timeframe,
              currentStartMonth := (comparisons cfg.timeframe).currentStartMonth,
              currentEndMonth := (comparisons cfg.timeframe).currentEndMonth,
              previousStartMonth := (comparisons cfg.timeframe).previousStartMonth,
              previousEndMonth := (comparisons cfg.timeframe).previousEndMonth,
              currentMonthCount := (comparisons cfg.timeframe).currentMonthCount,
              previousMonthCount := (comparisons cfg.timeframe).previousMonthCount,
              currentNetCashFlow := round2 (comparisons cfg.timeframe).netCashFlow.current,
              previousNetCashFlow := round2 (comparisons cfg.timeframe).netCashFlow.previous,
              delta := round2 delta,
              percentChange := (comparisons cfg.timeframe).netCashFlow.percentChange,
              direction := trendFromDelta delta,
              light :=
                match trendFromDelta delta with
                | TrendDirection.up => TrafficLight.green
                | TrendDirection.down => TrafficLight.red
                | TrendDirection.flat => TrafficLight.neutral,
              hasSufficientHistory := true } := by
          unfold mkTrajectorySignal
          simp [h1, h2]
        rw [hsignal]
        refine ⟨⟨?_, ?_, ?_⟩, ?_, ?_, ?_⟩
        · intro h
          simp [trendFromDelta, h]
        · intro h
          have hpos : (0 : ℚ) < delta := by
            have : (0 : ℚ) < EPSILON := by norm_num [EPSILON]
            linarith
          have habs : ¬ |delta| ≤ EPSILON := by
            push_neg
            exact lt_of_lt_of_le h (le_abs_self delta)
          simp [trendFromDelta, habs, hpos]
        · intro h
          have heps : (0 : ℚ) < EPSILON := by norm_num [EPSILON]
          have habs : ¬ |delta| ≤ EPSILON := by
            push_neg
            calc EPSILON < -delta := by linarith
            _ ≤ |delta| := neg_le_abs delta
          have hneg : ¬ delta > 0 := by linarith
          simp [trendFromDelta, habs, hneg]
        · intro h
          simp only at h
          rw [h]
        · intro h
          simp only at h
          rw [h]
        · intro h
          simp only at h
          rw [h]
    · have hsignal : (mkTrajectorySignal comparisons cfg).direction = TrendDirection.flat ∧
          (mkTrajectorySignal comparisons cfg).light = TrafficLight.neutral := by
        unfold mkTrajectorySignal
        simp [h2]
      exact ⟨fun _ => hsignal, fun _ hc => absurd hc h2⟩
  · have hsignal : (mkTrajectorySignal comparisons cfg).direction = TrendDirection.flat ∧
        (mkTrajectorySignal comparisons cfg).light = TrafficLight.neutral := by
      unfold mkTrajectorySignal
      simp [h1]
    exact ⟨fun _ => hsignal, fun hc => absurd hc h1⟩

/-- Claim C5: each of the three trajectory signals is forced to direction
`flat` and light `neutral` whenever the current or the previous window of
its comparison has zero months; when both windows have at least one
month, the direction follows the sign of the net-cash-flow delta (flat
within the epsilon tolerance) and the light mirrors the direction as
green/red/neutral. -/
theorem computeTrajectorySignals_neutrality
    (comparisons : KpiComparisonTimeframe → KpiTimeframeComparison) :
    (computeTrajectorySignals comparisons).Forall (fun s =>
      ((comparisons s.timeframe).currentMonthCount = 0 ∨
          (comparisons s.timeframe).previousMonthCount = 0 →
        s.direction = TrendDirection.flat ∧ s.light = TrafficLight.neutral) ∧
      (0 < (comparisons s.timeframe).currentMonthCount →
        0 < (comparisons s.timeframe).previousMonthCount →
        ((|(comparisons s.timeframe).netCashFlow.delta| ≤ EPSILON →
            s.direction = TrendDirection.flat) ∧
         (EPSILON < (comparisons s.timeframe).netCashFlow.delta →
            s.direction = TrendDirection.up) ∧
         ((comparisons s.timeframe).netCashFlow.delta < -EPSILON →
            s.direction = TrendDirection.down)) ∧
        ((s.direction = TrendDirection.up → s.light = TrafficLight.green) ∧
         (s.direction = TrendDirection.down → s.light = TrafficLight.red) ∧
         (s.direction = TrendDirection.flat → s.light = TrafficLight.neutral)))) := by
  unfold computeTrajectorySignals TRAJECTORY_SIGNALS
  simp only [List.map_cons, List.map_nil, List.Forall]
  exact ⟨mkTrajectorySignal_spec comparisons _, mkTrajectorySignal_spec comparisons _,
    mkTrajectorySignal_spec comparisons _⟩

/-- Claim C4: the trend model is `linear-trend` exactly when the series
has at least 6 points, the regression R-squared is at least 0.35 and the
absolute slope is at least `max(0.03 x range, 0.005 x |rollingBaseline|, 1)`
(the rolling baseline being the trailing `min(3, n)`-month average); a
linear model projects `intercept + slope x (n - 1 + k)` at offset `k`,
and the rolling-average model projects the constant rolling baseline at
every offset. -/
theorem buildTrendModel_decision_and_projection (values : List ℚ) (k : ℕ) :
    ((buildTrendModel values).method = TrendMethod.linearTrend ↔
      (6 ≤ values.length ∧
        (35 / 100 : ℚ) ≤ (linearRegression values).rSquared ∧
        max ((listMax values - listMin values) * (3 / 100))
            (max (|average (values.drop (values.length - min 3 values.length))| * (5 / 1000))
              1) ≤
          |(linearRegression values).slope|)) ∧
    ((buildTrendModel values).method = TrendMethod.linearTrend →
      (buildTrendModel values).projectAtOffset k =
        (linearRegression values).intercept +
          (linearRegression values).slope * ((values.length : ℚ) - 1 + (k : ℚ))) ∧
    ((buildTrendModel values).method = TrendMethod.rollingAverage →
      (buildTrendModel values).projectAtOffset k =
        average (values.drop (values.length - min 3 values.length))) := by
  have hdrop : values.length - max 1 (min 3 values.length) =
      values.length - min 3 values.length := by
    omega
  unfold buildTrendModel
  dsimp only
  by_cases hc : hasConfidentTrend values
  · rw [if_pos hc]
    refine ⟨?_, ?_, ?_⟩
    · constructor
      · intro _
        unfold hasConfidentTrend at hc
        rw [hdrop] at hc
        exact hc
      · intro _
        rfl
    · intro _
      rfl
    · intro h
      exact absurd h (by simp)
  · rw [if_neg hc]
    refine ⟨?_, ?_, ?_⟩
    · constructor
      · intro h
        exact absurd h (by simp)
      · intro h
        refine absurd ?_ hc
        unfold hasConfidentTrend
        rw [hdrop]
        exact h
    · intro h
      exact absurd h (by simp)
    · intro _
      dsimp only
      rw [hdrop]

theorem sumBy_congr {f g : α → ℚ} {l : List α} (h : ∀ x ∈ l, f x = g x) :
    sumBy f l = sumBy g l := by
  unfold sumBy
  rw [List.map_congr_left h]

theorem sumBy_sub (f g : α → ℚ) (l : List α) :
    sumBy (fun x => f x - g x) l = sumBy f l - sumBy g l := by
  induction l with
  | nil => simp [sumBy]
  | cons a as ih =>
    rw [sumBy_cons, sumBy_cons, sumBy_cons, ih]
    ring

theorem sumBy_mul_right (f : α → ℚ) (c : ℚ) (l : List α) :
    sumBy (fun x => f x * c) l = sumBy f l * c := by
  induction l with
  | nil => simp [sumBy]
  | cons a as ih =>
    rw [sumBy_cons, sumBy_cons, ih]
    ring

theorem sumBy_nonneg {f : α → ℚ} {l : List α} (h : ∀ x ∈ l, 0 ≤ f x) :
    0 ≤ sumBy f l := by
  induction l with
  | nil => simp [sumBy]
  | cons a as ih =>
    rw [sumBy_cons]
    have ha := h a (List.mem_cons_self a as)
    have has := ih fun x hx => h x (List.mem_cons_of_mem a hx)
    linarith

theorem sumBy_eq_zero {f : α → ℚ} {l : List α} (h : ∀ x ∈ l, f x = 0) :
    sumBy f l = 0 := by
  induction l with
  | nil => simp [sumBy]
  | cons a as ih =>
    rw [sumBy_cons, h a (List.mem_cons_self a as),
      ih fun x hx => h x (List.mem_cons_of_mem a hx)]
    ring

theorem mem_monthNumberRange {m : ℤ} : m ∈ monthNumberRange ↔ 1 ≤ m ∧ m ≤ 12 := by
  simp only [monthNumberRange, List.mem_cons, List.not_mem_nil, or_false]
  omega

/-- Claim C9: after the re-centering step of `detectExpenseSeasonality`,
the group-size-weighted sum of the seasonal adjustments over the twelve
calendar month numbers is exactly zero (unobserved months contribute
weight zero), so the weighted average of the adjustments over the
observed groups is zero as well. -/
theorem detectExpenseSeasonality_recentered (monthlyRollups : List MonthlyRollup)
    (expenseTrendModel : TrendModel) :
    sumBy (fun m =>
        ((seasonGroup monthlyRollups expenseTrendModel.fitAtIndex m).length : ℚ) *
          (detectExpenseSeasonality monthlyRollups expenseTrendModel).adjustmentsByMonth m)
      monthNumberRange = 0 ∧
    sumBy (fun m =>
        ((seasonGroup monthlyRollups expenseTrendModel.fitAtIndex m).length : ℚ) *
          (detectExpenseSeasonality monthlyRollups expenseTrendModel).adjustmentsByMonth m)
      monthNumberRange /
      sumBy (fun m =>
        ((seasonGroup monthlyRollups expenseTrendModel.fitAtIndex m).length : ℚ))
      monthNumberRange = 0 := by
  set G := seasonGroup monthlyRollups expenseTrendModel.fitAtIndex with hG
  set W := sumBy (fun m => ((G m).length : ℚ)) monthNumberRange with hW
  set S := sumBy (fun m => ((G m).length : ℚ) * average (G m)) monthNumberRange with hS
  set C : ℚ := if 0 < W then S / W else 0 with hC
  have hadj : (detectExpenseSeasonality monthlyRollups expenseTrendModel).adjustmentsByMonth =
      fun m => if 1 ≤ m ∧ m ≤ 12 ∧ G m ≠ [] then average (G m) - C else 0 := rfl
  have hterm : ∀ m ∈ monthNumberRange,
      ((G m).length : ℚ) *
          (detectExpenseSeasonality monthlyRollups expenseTrendModel).adjustmentsByMonth m =
        ((G m).length : ℚ) * average (G m) - ((G m).length : ℚ) * C := by
    intro m hm
    obtain ⟨hm1, hm2⟩ := mem_monthNumberRange.mp hm
    rw [hadj]
    by_cases hne : G m = []
    · rw [hne]
      simp
    · simp only [hm1, hm2, hne, ne_eq, not_false_eq_true, and_true, true_and, if_true]
      ring
  have hsum : sumBy (fun m =>
      ((G m).length : ℚ) *
        (detectExpenseSeasonality monthlyRollups expenseTrendModel).adjustmentsByMonth m)
      monthNumberRange = 0 := by
    rw [sumBy_congr hterm, sumBy_sub, sumBy_mul_right, ← hW, ← hS]
    by_cases hWpos : 0 < W
    · rw [hC, if_pos hWpos]
      field_simp
    · have hW0 : W = 0 := by
        have hnn : 0 ≤ W := by
          rw [hW]
          exact sumBy_nonneg fun m _ => by positivity
        linarith [not_lt.mp hWpos]
      have hsz : ∀ m ∈ monthNumberRange, ((G m).length : ℚ) = 0 := by
        intro m hm
        have hle : ((G m).length : ℚ) ≤ W := by
          rw [hW]
          unfold sumBy
          refine List.single_le_sum ?_ _ (List.mem_map_of_mem _ hm)
          intro x hx
          obtain ⟨a, _, rfl⟩ := List.mem_map.mp hx
          positivity
        have hge : (0 : ℚ) ≤ ((G m).length : ℚ) := by positivity
        linarith [hW0 ▸ hle]
      have hS0 : S = 0 := by
        rw [hS]
        refine sumBy_eq_zero ?_
        intro m hm
        rw [hsz m hm]
        ring
      rw [hC, if_neg hWpos, hS0]
      ring
  refine ⟨hsum, ?_⟩
  rw [hsum]
  exact zero_div _

theorem addMonths_zero_of_valid {m : MonthKey} (h1 : 1 ≤ m.mo) (h2 : m.mo ≤ 12) :
    addMonths m 0 = m := by
  cases m with
  | mk y mo =>
    simp only [addMonths, monthIdx, MonthKey.mk.injEq] at *
    omega

theorem chain'_addMonths_aux (L : MonthKey) :
    ∀ (pm : ℕ) (s : ℤ),
      List.Chain' (fun a b => b = addMonths a 1 ∧ 1 ≤ a.mo ∧ a.mo ≤ 12)
        (addMonths L s :: (List.range pm).map (fun (j : ℕ) => addMonths L ((j : ℤ) + s + 1))) := by
  intro pm
  induction pm with
  | zero =>
    intro s
    exact List.chain'_singleton _
  | succ pm ih =>
    intro s
    rw [List.range_succ_eq_map]
    simp only [List.map_cons, List.map_map, Nat.cast_zero, Function.comp]
    refine List.Chain'.cons ?_ ?_
    · refine ⟨?_, (addMonths_mo_bounds L s).1, (addMonths_mo_bounds L s).2⟩
      rw [addMonths_addMonths]
      norm_num
    · have hfun : (fun (j : ℕ) => addMonths L ((j : ℤ) + s + 1)) ∘ Nat.succ =
          fun (j : ℕ) => addMonths L ((j : ℤ) + (s + 1) + 1) := by
        funext j
        simp only [Function.comp_apply]
        congr 1
        push_cast
        ring
      have hhead : addMonths L ((0 : ℤ) + s + 1) = addMonths L (s + 1) := by
        norm_num
      rw [hfun, hhead]
      exact ih (s + 1)

theorem chain'_addMonths (L : MonthKey) (h1 : 1 ≤ L.mo) (h2 : L.mo ≤ 12) (pm : ℕ) :
    List.Chain' (fun a b => b = addMonths a 1 ∧ 1 ≤ a.mo ∧ a.mo ≤ 12)
      (L :: (List.range pm).map (fun (j : ℕ) => addMonths L ((j : ℤ) + 1))) := by
  have h := chain'_addMonths_aux L pm 0
  rw [addMonths_zero_of_valid h1 h2] at h
  have hfun : (fun j : ℕ => addMonths L ((j : ℤ) + 0 + 1)) =
      fun j : ℕ => addMonths L ((j : ℤ) + 1) := by
    funext j
    norm_num
  rw [hfun] at h
  exact h

/-- Claim C6: for a nonempty rollup list (with a well-formed last month
key), the forecast series is the actual rows followed by the projected
rows; the projected months are exactly `addMonths(latest, k)` for
`k = 1..projectionMonths`, each projected month is exactly one calendar
month after the previous one (the last actual month included), and the
projected months are strictly increasing, strictly after the last actual
month. -/
theorem buildCashFlowForecastSeries_chronology (monthlyRollups : List MonthlyRollup)
    (projectionMonths : ℕ) (lastRollup : MonthlyRollup)
    (hlast : monthlyRollups.getLast? = some lastRollup)
    (hmo1 : 1 ≤ lastRollup.month.mo) (hmo2 : lastRollup.month.mo ≤ 12) :
    ((buildCashFlowForecastSeries monthlyRollups projectionMonths).drop
        monthlyRollups.length).map (·.month) =
      (List.range projectionMonths).map (fun (j : ℕ) => addMonths lastRollup.month ((j : ℤ) + 1)) ∧
    (∀ p ∈ (buildCashFlowForecastSeries monthlyRollups projectionMonths).drop
        monthlyRollups.length, p.status = ForecastStatus.projected) ∧
    List.Chain' (fun a b => b = addMonths a 1)
      (lastRollup.month ::
        ((buildCashFlowForecastSeries monthlyRollups projectionMonths).drop
          monthlyRollups.length).map (·.month)) ∧
    List.Chain' monthLt
      (lastRollup.month ::
        ((buildCashFlowForecastSeries monthlyRollups projectionMonths).drop
          monthlyRollups.length).map (·.month)) := by
  have hdropeq : (buildCashFlowForecastSeries monthlyRollups projectionMonths).drop
      monthlyRollups.length =
      (List.range projectionMonths).map (fun j =>
        let index : ℕ := j + 1
        let month := addMonths lastRollup.month (index : ℤ)
        let monthNumber := monthNumberOf month
        let projectedRevenue := round2
          (max ((buildTrendModel (monthlyRollups.map (·.revenue))).projectAtOffset index) 0)
        let seasonalExpenseAdjustment :=
          if (detectExpenseSeasonality monthlyRollups
                (buildTrendModel (monthlyRollups.map (·.expenses)))).isConfident = true ∧
              1 ≤ monthNumber ∧ monthNumber ≤ 12 then
            (detectExpenseSeasonality monthlyRollups
              (buildTrendModel (monthlyRollups.map (·.expenses)))).adjustmentsByMonth
              monthNumber
          else 0
        let projectedExpenses := round2
          (max ((buildTrendModel (monthlyRollups.map (·.expenses))).projectAtOffset index +
            seasonalExpenseAdjustment) 0)
        { month := month, revenue := projectedRevenue, expenses := projectedExpenses,
          netCashFlow := round2 (projectedRevenue - projectedExpenses),
          status := ForecastStatus.projected }) := by
    unfold buildCashFlowForecastSeries
    rw [hlast]
    dsimp only
    rw [show monthlyRollups.length =
        (monthlyRollups.map (fun rollup =>
          ({ month := rollup.month, revenue := rollup.revenue, expenses := rollup.expenses,
             netCashFlow := rollup.netCashFlow,
             status := ForecastStatus.actual } : CashFlowForecastPoint))).length from
      (List.length_map _ _).symm]
    rw [List.drop_left]
  have hmonths : ((buildCashFlowForecastSeries monthlyRollups projectionMonths).drop
      monthlyRollups.length).map (·.month) =
      (List.range projectionMonths).map (fun (j : ℕ) =>
        addMonths lastRollup.month ((j : ℤ) + 1)) := by
    rw [hdropeq, List.map_map]
    apply List.map_congr_left
    intro j _
    simp only [Function.comp_apply]
    push_cast
    rfl
  refine ⟨hmonths, ?_, ?_, ?_⟩
  · intro p hp
    rw [hdropeq] at hp
    obtain ⟨j, _, rfl⟩ := List.mem_map.mp hp
    rfl
  · rw [hmonths]
    exact (chain'_addMonths lastRollup.month hmo1 hmo2 projectionMonths).imp
      fun _ _ h => h.1
  · rw [hmonths]
    refine (chain'_addMonths lastRollup.month hmo1 hmo2 projectionMonths).imp ?_
    intro a b h
    rw [h.1]
    exact monthLt_addMonths_of_pos h.2.1 h.2.2 (by norm_num)

theorem buildCashFlowForecastSeries_chronology_witness :
    ((buildCashFlowForecastSeries
        [{ month := ⟨2024, 12⟩, revenue := 100, expenses := 50, netCashFlow := 50,
           savingsRate := 50, transactionCount := 1 }] 2).drop
        ([{ month := ⟨2024, 12⟩, revenue := 100, expenses := 50, netCashFlow := 50,
            savingsRate := 50, transactionCount := 1 }] : List MonthlyRollup).length).map
      (·.month) =
      (List.range 2).map (fun (j : ℕ) =>
        addMonths
          ({ month := ⟨2024, 12⟩, revenue := 100, expenses := 50, netCashFlow := 50,
             savingsRate := 50, transactionCount := 1 } : MonthlyRollup).month
          ((j : ℤ) + 1)) ∧
    (∀ p ∈ (buildCashFlowForecastSeries
        [{ month := ⟨2024, 12⟩, revenue := 100, expenses := 50, netCashFlow := 50,
           savingsRate := 50, transactionCount := 1 }] 2).drop
        ([{ month := ⟨2024, 12⟩, revenue := 100, expenses := 50, netCashFlow := 50,
            savingsRate := 50, transactionCount := 1 }] : List MonthlyRollup).length,
      p.status = ForecastStatus.projected) ∧
    List.Chain' (fun a b => b = addMonths a 1)
      (({ month := ⟨2024, 12⟩, revenue := 100, expenses := 50, netCashFlow := 50,
          savingsRate := 50, transactionCount := 1 } : MonthlyRollup).month ::
        ((buildCashFlowForecastSeries
          [{ month := ⟨2024, 12⟩, revenue := 100, expenses := 50, netCashFlow := 50,
             savingsRate := 50, transactionCount := 1 }] 2).drop
          ([{ month := ⟨2024, 12⟩, revenue := 100, expenses := 50, netCashFlow := 50,
              savingsRate := 50, transactionCount := 1 }] : List MonthlyRollup).length).map
          (·.month)) ∧
    List.Chain' monthLt
      (({ month := ⟨2024, 12⟩, revenue := 100, expenses := 50, netCashFlow := 50,
          savingsRate := 50, transactionCount := 1 } : MonthlyRollup).month ::
        ((buildCashFlowForecastSeries
          [{ month := ⟨2024, 12⟩, revenue := 100, expenses := 50, netCashFlow := 50,
             savingsRate := 50, transactionCount := 1 }] 2).drop
          ([{ month := ⟨2024, 12⟩, revenue := 100, expenses := 50, netCashFlow := 50,
              savingsRate := 50, transactionCount := 1 }] : List MonthlyRollup).length).map
          (·.month)) :=
  buildCashFlowForecastSeries_chronology _ 2 _ rfl (by decide) (by decide)

theorem sumBy_map (f : β → ℚ) (g : α → β) (l : List α) :
    sumBy f (l.map g) = sumBy (fun x => f (g x)) l := by
  simp only [sumBy, List.map_map]
  rfl

theorem sumBy_range_succ_shift (g : ℕ → ℚ) (n : ℕ) :
    sumBy g (List.range (n + 1)) = g 0 + sumBy (fun i => g (i + 1)) (List.range n) := by
  rw [List.range_succ_eq_map, sumBy_cons, sumBy_map]

theorem buildScenarioRows_eq (L : MonthKey) (bR bE gF eF : ℚ) :
    ∀ (remaining k : ℕ) (cum : ℚ), IsCent cum →
      buildScenarioRows L bR bE gF eF k cum remaining =
        (List.range remaining).map (fun (j : ℕ) =>
          { month := addMonths L ((k + j : ℕ) : ℤ),
            projectedIncome := round2 (bR * gF ^ (k + j)),
            projectedExpense := round2 (bE * eF ^ (k + j)),
            projectedNet := scenarioNetAt bR bE gF eF (k + j),
            cumulativeNet := cum +
              sumBy (fun i => scenarioNetAt bR bE gF eF (k + i)) (List.range (j + 1)) }) := by
  intro remaining
  induction remaining with
  | zero =>
    intro k cum _
    rfl
  | succ r ih =>
    intro k cum hcum
    have hnetCent : IsCent (scenarioNetAt bR bE gF eF k) :=
      isCent_sub (isCent_round2 _) (isCent_round2 _)
    have hnet : round2 (round2 (bR * gF ^ k) - round2 (bE * eF ^ k)) =
        scenarioNetAt bR bE gF eF k :=
      round2_of_isCent hnetCent
    have hcum' : round2 (cum + round2 (round2 (bR * gF ^ k) - round2 (bE * eF ^ k))) =
        cum + scenarioNetAt bR bE gF eF k := by
      rw [hnet]
      exact round2_of_isCent (isCent_add hcum hnetCent)
    simp only [buildScenarioRows]
    rw [List.range_succ_eq_map, List.map_cons, List.map_map]
    congr 1
    · simp only [ScenarioPoint.mk.injEq]
      refine ⟨?_, ?_, ?_, ?_, ?_⟩
      · norm_num
      · norm_num
      · norm_num
      · rw [hnet]
        norm_num [scenarioNetAt]
      · rw [hcum']
        have hr1 : List.range 1 = [0] := rfl
        rw [hr1, sumBy_cons, sumBy_nil]
        norm_num
    · rw [hcum', ih (k + 1) (cum + scenarioNetAt bR bE gF eF k) (isCent_add hcum hnetCent)]
      apply List.map_congr_left
      intro j _
      simp only [Function.comp_apply, ScenarioPoint.mk.injEq]
      have hidx : k + 1 + j = k + (j + 1) := by omega
      refine ⟨?_, ?_, ?_, ?_, ?_⟩
      · rw [hidx]
      · rw [hidx]
      · rw [hidx]
      · rw [hidx]
      · have hinner : sumBy (fun i => scenarioNetAt bR bE gF eF (k + 1 + i))
            (List.range (j + 1)) =
            sumBy (fun i => scenarioNetAt bR bE gF eF (k + (i + 1))) (List.range (j + 1)) := by
          refine sumBy_congr ?_
          intro i _
          congr 1
          omega
        rw [hinner, sumBy_range_succ_shift (fun i => scenarioNetAt bR bE gF eF (k + i)) (j + 1)]
        simp only [Nat.add_zero]
        ring

/-- Claim C7 (amended): `projectScenario` returns the empty list when
there are no monthly rollups; otherwise the k-th projected point
(k = 1..months) carries
`projectedIncome = round2(baselineRevenue x growthFactor^k)` and
`projectedExpense = round2(baselineExpense x expenseFactor^k)` — compound
growth/decay with a two-decimal rounding per point, which the original
claim omits (see the counterexample) — with
`projectedNet = projectedIncome - projectedExpense` and `cumulativeNet`
the running sum of the projected nets, the baselines being the
trailing-3-month averages. -/
theorem projectScenario_formula (model : DashboardModelSlice) (input : ScenarioInput) :
    (model.monthlyRollups = [] → projectScenario model input = []) ∧
    (∀ L, model.latestMonth = some L → model.monthlyRollups ≠ [] →
      projectScenario model input =
        (List.range input.months).map (fun (j : ℕ) =>
          { month := addMonths L ((j : ℤ) + 1),
            projectedIncome := round2
              (scenarioBaselineRevenue model * scenarioGrowthFactor input ^ (j + 1)),
            projectedExpense := round2
              (scenarioBaselineExpense model * scenarioExpenseFactor input ^ (j + 1)),
            projectedNet :=
              round2 (scenarioBaselineRevenue model * scenarioGrowthFactor input ^ (j + 1)) -
                round2 (scenarioBaselineExpense model * scenarioExpenseFactor input ^ (j + 1)),
            cumulativeNet := sumBy (fun i =>
              scenarioNetAt (scenarioBaselineRevenue model) (scenarioBaselineExpense model)
                (scenarioGrowthFactor input) (scenarioExpenseFactor input) (i + 1))
              (List.range (j + 1)) })) := by
  constructor
  · intro h
    unfold projectScenario
    rcases hL : model.latestMonth with _ | L
    · rfl
    · dsimp only
      rw [if_pos h]
  · intro L hL hne
    unfold projectScenario
    rw [hL]
    dsimp only
    rw [if_neg hne]
    refine (buildScenarioRows_eq L (scenarioBaselineRevenue model)
      (scenarioBaselineExpense model) (scenarioGrowthFactor input)
      (scenarioExpenseFactor input) input.months 1 0 isCent_zero).trans ?_
    apply List.map_congr_left
    intro j _
    simp only [ScenarioPoint.mk.injEq]
    have hidx : 1 + j = j + 1 := by omega
    refine ⟨?_, ?_, ?_, ?_, ?_⟩
    · rw [hidx]
      congr 1
    · rw [hidx]
    · rw [hidx]
    · rw [hidx]
      rfl
    · rw [zero_add]
      refine sumBy_congr ?_
      intro i _
      congr 1
      omega

/-- The bare compound formula of claim C7 fails on the rounded outputs:
with a trailing-3-month baseline revenue of 1/3 and zero growth, the
first projected income is `round2(1/3) = 0.33`, not `1/3 x (1 + 0/100)^1`. -/
theorem projectScenario_round2_cex :
    projectScenario
        { latestMonth := some ⟨2024, 1⟩,
          monthlyRollups :=
            [{ month := ⟨2023, 11⟩, revenue := 1, expenses := 0, netCashFlow := 1,
               savingsRate := 100, transactionCount := 1 },
             { month := ⟨2023, 12⟩, revenue := 0, expenses := 0, netCashFlow := 0,
               savingsRate := 0, transactionCount := 1 },
             { month := ⟨2024, 1⟩, revenue := 0, expenses := 0, netCashFlow := 0,
               savingsRate := 0, transactionCount := 1 }] }
        { revenueGrowthPct := 0, expenseReductionPct := 0, months := 1 } =
      [{ month := ⟨2024, 2⟩, projectedIncome := 33 / 100, projectedExpense := 0,
         projectedNet := 33 / 100, cumulativeNet := 33 / 100 }] ∧
    ¬ ((33 : ℚ) / 100 = 1 / 3 * (1 + 0 / 100) ^ 1) := by
  constructor
  · norm_num [projectScenario, buildScenarioRows, round2, sumBy, addMonths, monthIdx]
    simp
  · norm_num

end Scorecard
